import Mathlib

/-!
Verification development for the PDF outline extractor
(`src/pdf_outline_extractor.py`).

The Python source is shallowly embedded over exact data:

* text is `List Char` (Unicode scalar values, matching Python's
  per-codepoint string model; `len`, slicing and comparisons agree);
* floating point quantities (font sizes, coordinates, thresholds) are
  modelled as exact rationals `ℚ`;
* the regular expressions of the source are hand-translated, pattern by
  pattern, into decidable Boolean functions on `List Char`; each function's
  doc comment quotes the original pattern.  Python's `re` module is
  Unicode-aware; the translations cover the codepoint ranges that appear in
  this program (ASCII, Latin-1, Cyrillic, Arabic, CJK, kana, Hangul) and
  treat inputs as newline-free, which holds for all line texts the program
  builds (they are concatenations of stripped span texts);
* `str.lower`/`str.upper` are modelled on the same codepoint ranges
  (identity elsewhere);
* the collaborator libraries (fitz, pdfplumber) are modelled as input data:
  pages/blocks/lines/spans with sizes, flags and rotation angles, plus the
  per-page table boxes and drawing rectangles they report.  Exceptions
  raised by collaborators are modelled with `Option`/`Except`.
-/

namespace PdfExtract

set_option maxRecDepth 100000

attribute [local semireducible] Rat.mul Rat.inv Rat.add Rat.sub Rat.ofScientific

abbrev Txt := List Char

/-- Inclusive codepoint-range test used to translate regex character classes. -/
def inR (c : Char) (lo hi : Nat) : Bool := decide (lo ≤ c.toNat ∧ c.toNat ≤ hi)

/-- Matches the class `[A-Z]` (no IGNORECASE). -/
def isUpperA (c : Char) : Bool := inR c 0x41 0x5A

/-- Matches the class `[a-z]` (no IGNORECASE). -/
def isLowerA (c : Char) : Bool := inR c 0x61 0x7A

/-- Matches `[A-Za-z]`; also what `[A-Z]` or `[a-z]` match under IGNORECASE. -/
def isLatinCh (c : Char) : Bool := isUpperA c || isLowerA c

/-- Matches `[0-9]` / `\d` (ASCII digits; the program's inputs carry no
other Unicode digits). -/
def isDigitCh (c : Char) : Bool := inR c 0x30 0x39

/-- CJK unified ideographs `一-鿿`. -/
def isCjkCh (c : Char) : Bool := inR c 0x4E00 0x9FFF

/-- Hiragana `぀-ゟ`. -/
def isHiraCh (c : Char) : Bool := inR c 0x3040 0x309F

/-- Katakana `゠-ヿ`. -/
def isKataCh (c : Char) : Bool := inR c 0x30A0 0x30FF

/-- Hiragana or Katakana. -/
def isKanaCh (c : Char) : Bool := isHiraCh c || isKataCh c

/-- Arabic block `؀-ۿ`. -/
def isArabCh (c : Char) : Bool := inR c 0x600 0x6FF

/-- Cyrillic block `Ѐ-ӿ`. -/
def isCyrCh (c : Char) : Bool := inR c 0x400 0x4FF

/-- Hangul syllables `가-힯`. -/
def isHangulCh (c : Char) : Bool := inR c 0xAC00 0xD7AF

/-- Python `\s` on the inputs in scope (ASCII whitespace). -/
def pySpace (c : Char) : Bool :=
  decide (c.toNat = 0x20) || decide (c.toNat = 0x9) || decide (c.toNat = 0xA) ||
  decide (c.toNat = 0xD) || decide (c.toNat = 0xB) || decide (c.toNat = 0xC)

/-- Python `\w` on the codepoint ranges in scope: ASCII alphanumerics and
underscore plus the letter scripts this program handles (Latin-1 letters,
Cyrillic, Arabic, CJK, kana, Hangul). -/
def isWordCh (c : Char) : Bool :=
  isLatinCh c || isDigitCh c || decide (c.toNat = 0x5F) ||
  (inR c 0xC0 0xFF && !(decide (c.toNat = 0xD7)) && !(decide (c.toNat = 0xF7))) ||
  isCyrCh c || isArabCh c || isCjkCh c || isKanaCh c || isHangulCh c

/-- Model of Python `str.lower` per codepoint, on the ranges in scope
(ASCII, Latin-1, Cyrillic); identity on uncased scripts. -/
def pyLower (c : Char) : Char :=
  if isUpperA c then Char.ofNat (c.toNat + 32)
  else if inR c 0xC0 0xD6 || inR c 0xD8 0xDE then Char.ofNat (c.toNat + 32)
  else if inR c 0x400 0x40F then Char.ofNat (c.toNat + 80)
  else if inR c 0x410 0x42F then Char.ofNat (c.toNat + 32)
  else c

/-- Model of Python `str.upper` per codepoint, on the ranges in scope. -/
def pyUpper (c : Char) : Char :=
  if isLowerA c then Char.ofNat (c.toNat - 32)
  else if inR c 0xE0 0xF6 || inR c 0xF8 0xFE then Char.ofNat (c.toNat - 32)
  else if inR c 0x450 0x45F then Char.ofNat (c.toNat - 80)
  else if inR c 0x430 0x44F then Char.ofNat (c.toNat - 32)
  else c

/-- Python `str.lower` over a whole string. -/
def lowerT (t : Txt) : Txt := t.map pyLower

/-- Python `str.upper` over a whole string. -/
def upperT (t : Txt) : Txt := t.map pyUpper

/-- Python `str.strip()` (whitespace from both ends). -/
def pyStrip (t : Txt) : Txt :=
  ((t.dropWhile pySpace).reverse.dropWhile pySpace).reverse

/-- Python `str.strip(chars)` for an explicit character set. -/
def stripSet (cs : List Char) (t : Txt) : Txt :=
  ((t.dropWhile (fun c => cs.contains c)).reverse.dropWhile
    (fun c => cs.contains c)).reverse

/-- Python `a.startswith(b)`. -/
def startsT (hay pat : Txt) : Bool := List.isPrefixOf pat hay

/-- Case-insensitive prefix test (used for IGNORECASE literals). -/
def startsCIT (hay pat : Txt) : Bool := List.isPrefixOf (lowerT pat) (lowerT hay)

/-- Python `b in a` (substring containment). -/
def containsT (hay pat : Txt) : Bool :=
  hay.tails.any (fun s => List.isPrefixOf pat s)

/-- Case-insensitive substring containment. -/
def containsCIT (hay pat : Txt) : Bool := containsT (lowerT hay) (lowerT pat)

/-- Python `a.endswith(b)`. -/
def endsT (hay pat : Txt) : Bool := List.isSuffixOf pat hay

/-- Containment of a run of `n` copies of `c` (regex `c{n,}` searched
anywhere, e.g. `\.{3,}`). -/
def containsRun (c : Char) (n : Nat) (t : Txt) : Bool :=
  containsT t (List.replicate n c)

/-- Helper for Python `str.split()`: accumulates the current word reversed. -/
def splitWsAux : Txt → Txt → List Txt
  | [], acc => if acc.isEmpty then [] else [acc.reverse]
  | c :: t, acc =>
    if pySpace c then
      if acc.isEmpty then splitWsAux t [] else acc.reverse :: splitWsAux t []
    else splitWsAux t (c :: acc)

/-- Python `str.split()` — split on whitespace runs, no empty tokens. -/
def splitWs (t : Txt) : List Txt := splitWsAux t []

/-- First occurrences only (models iterating a Python `set` built by
insertion when only membership matters). -/
def dedupAux : List Txt → List Txt → List Txt
  | [], _ => []
  | x :: xs, seen =>
    if seen.contains x then dedupAux xs seen else x :: dedupAux xs (x :: seen)

/-- Distinct elements of a list of strings, first occurrences kept. -/
def dedupTxts (l : List Txt) : List Txt := dedupAux l []

/-- Python `" ".join(parts)`. -/
def joinSpace : List Txt → Txt
  | [] => []
  | [x] => x
  | x :: xs => x ++ ' ' :: joinSpace xs

/-- Whether any of `pats` occurs in `hay`, case-insensitively. -/
def containsAnyCI (hay : Txt) (pats : List Txt) : Bool :=
  pats.any (fun p => containsCIT hay p)

/-- Whether `hay` starts with any of `pats`, case-insensitively. -/
def startsAnyCI (hay : Txt) (pats : List Txt) : Bool :=
  pats.any (fun p => startsCIT hay p)

/-! ### Language tags and the static multilingual tables

Transcribed from `setup_multilingual_patterns` in the source.  Note that the
Python code passes every table entry through `re.escape` before use, so
entries such as `第.*章` are literal strings there; they are kept verbatim
here. -/

/-- Language tags returned by `detect_language`; constructor order matches
the insertion order of the Python dicts. -/
inductive Lang | en | ja | zh | es | fr | de | ar | ko | ru
deriving DecidableEq

open Lang

/-- One language's entry of `self.heading_keywords` (field order = dict
insertion order). -/
structure KwTable where
  part : List Txt
  appendix : List Txt
  chapter : List Txt
  introduction : List Txt
  conclusion : List Txt
  references : List Txt
  tableOfContents : List Txt

/-- Transcription of `self.heading_keywords`. -/
def headingKeywords : Lang → KwTable
  | en =>
    { part := ["part".toList, "section".toList]
      appendix := ["appendix".toList, "annex".toList]
      chapter := ["chapter".toList, "chap".toList]
      introduction := ["introduction".toList, "intro".toList]
      conclusion := ["conclusion".toList, "summary".toList]
      references := ["references".toList, "bibliography".toList, "citations".toList]
      tableOfContents := ["table of contents".toList, "contents".toList, "toc".toList] }
  | ja =>
    { part := ["部".toList, "章".toList, "パート".toList, "第.*部".toList, "第.*章".toList]
      appendix := ["付録".toList, "別添".toList, "添付".toList, "参考資料".toList]
      chapter := ["章".toList, "第.*章".toList, "チャプター".toList]
      introduction := ["はじめに".toList, "序論".toList, "導入".toList, "概要".toList, "まえがき".toList]
      conclusion := ["結論".toList, "まとめ".toList, "おわりに".toList, "総括".toList]
      references := ["参考文献".toList, "引用文献".toList, "文献".toList, "参照".toList]
      tableOfContents := ["目次".toList, "内容".toList, "もくじ".toList] }
  | zh =>
    { part := ["部分".toList, "部".toList, "章".toList, "第.*部".toList, "第.*章".toList]
      appendix := ["附录".toList, "附錄".toList, "附件".toList, "参考资料".toList, "參考資料".toList]
      chapter := ["章".toList, "第.*章".toList, "章节".toList, "章節".toList]
      introduction := ["介绍".toList, "介紹".toList, "序言".toList, "导言".toList, "導言".toList, "概述".toList]
      conclusion := ["结论".toList, "結論".toList, "总结".toList, "總結".toList, "小结".toList, "小結".toList]
      references := ["参考文献".toList, "參考文獻".toList, "引用文献".toList, "引用文獻".toList, "文献".toList, "文獻".toList]
      tableOfContents := ["目录".toList, "目錄".toList, "内容".toList, "內容".toList] }
  | es =>
    { part := ["parte".toList, "sección".toList, "capítulo".toList]
      appendix := ["apéndice".toList, "anexo".toList, "adjunto".toList]
      chapter := ["capítulo".toList, "cap".toList]
      introduction := ["introducción".toList, "intro".toList, "presentación".toList]
      conclusion := ["conclusión".toList, "resumen".toList, "síntesis".toList]
      references := ["referencias".toList, "bibliografía".toList, "citas".toList]
      tableOfContents := ["índice".toList, "contenido".toList, "tabla de contenidos".toList] }
  | fr =>
    { part := ["partie".toList, "section".toList, "chapitre".toList]
      appendix := ["annexe".toList, "appendice".toList, "complément".toList]
      chapter := ["chapitre".toList, "chap".toList]
      introduction := ["introduction".toList, "présentation".toList, "avant-propos".toList]
      conclusion := ["conclusion".toList, "résumé".toList, "synthèse".toList]
      references := ["références".toList, "bibliographie".toList, "citations".toList]
      tableOfContents := ["table des matières".toList, "sommaire".toList, "contenu".toList] }
  | de =>
    { part := ["teil".toList, "abschnitt".toList, "kapitel".toList]
      appendix := ["anhang".toList, "anlage".toList, "beilage".toList]
      chapter := ["kapitel".toList, "kap".toList]
      introduction := ["einführung".toList, "einleitung".toList, "vorwort".toList]
      conclusion := ["schlussfolgerung".toList, "zusammenfassung".toList, "fazit".toList]
      references := ["literatur".toList, "bibliographie".toList, "quellen".toList]
      tableOfContents := ["inhaltsverzeichnis".toList, "inhalt".toList] }
  | ar =>
    { part := ["جزء".toList, "قسم".toList, "فصل".toList, "باب".toList]
      appendix := ["ملحق".toList, "مرفق".toList, "ضميمة".toList]
      chapter := ["فصل".toList, "باب".toList]
      introduction := ["مقدمة".toList, "تمهيد".toList, "استهلال".toList]
      conclusion := ["خاتمة".toList, "استنتاج".toList, "ملخص".toList]
      references := ["مراجع".toList, "مصادر".toList, "ببليوغرافيا".toList]
      tableOfContents := ["فهرس المحتويات".toList, "المحتويات".toList, "فهرس".toList] }
  | ko =>
    { part := ["부".toList, "편".toList, "장".toList, "제.*부".toList, "제.*편".toList]
      appendix := ["부록".toList, "첨부".toList, "참고자료".toList]
      chapter := ["장".toList, "제.*장".toList, "챕터".toList]
      introduction := ["서론".toList, "도입".toList, "개요".toList, "머리말".toList]
      conclusion := ["결론".toList, "요약".toList, "맺음말".toList, "정리".toList]
      references := ["참고문헌".toList, "인용문헌".toList, "문헌".toList, "참조".toList]
      tableOfContents := ["목차".toList, "차례".toList, "내용".toList] }
  | ru =>
    { part := ["часть".toList, "раздел".toList, "глава".toList]
      appendix := ["приложение".toList, "дополнение".toList]
      chapter := ["глава".toList, "гл".toList]
      introduction := ["введение".toList, "предисловие".toList, "вступление".toList]
      conclusion := ["заключение".toList, "выводы".toList, "резюме".toList]
      references := ["литература".toList, "библиография".toList, "источники".toList]
      tableOfContents := ["содержание".toList, "оглавление".toList] }

/-- All keyword lists of one language, in dict-values order. -/
def allKeywords (l : Lang) : List Txt :=
  let k := headingKeywords l
  k.part ++ k.appendix ++ k.chapter ++ k.introduction ++ k.conclusion ++
    k.references ++ k.tableOfContents

/-- Transcription of `self.month_names`. -/
def monthNames : Lang → List Txt
  | en =>
    ["january".toList, "february".toList, "march".toList, "april".toList,
     "may".toList, "june".toList, "july".toList, "august".toList,
     "september".toList, "october".toList, "november".toList, "december".toList,
     "jan".toList, "feb".toList, "mar".toList, "apr".toList, "may".toList,
     "jun".toList, "jul".toList, "aug".toList, "sep".toList, "oct".toList,
     "nov".toList, "dec".toList]
  | ja =>
    ["1月".toList, "2月".toList, "3月".toList, "4月".toList, "5月".toList,
     "6月".toList, "7月".toList, "8月".toList, "9月".toList, "10月".toList,
     "11月".toList, "12月".toList]
  | zh =>
    ["一月".toList, "二月".toList, "三月".toList, "四月".toList, "五月".toList,
     "六月".toList, "七月".toList, "八月".toList, "九月".toList, "十月".toList,
     "十一月".toList, "十二月".toList, "1月".toList, "2月".toList, "3月".toList,
     "4月".toList, "5月".toList, "6月".toList, "7月".toList, "8月".toList,
     "9月".toList, "10月".toList, "11月".toList, "12月".toList]
  | es =>
    ["enero".toList, "febrero".toList, "marzo".toList, "abril".toList,
     "mayo".toList, "junio".toList, "julio".toList, "agosto".toList,
     "septiembre".toList, "octubre".toList, "noviembre".toList, "diciembre".toList,
     "ene".toList, "feb".toList, "mar".toList, "abr".toList, "may".toList,
     "jun".toList, "jul".toList, "ago".toList, "sep".toList, "oct".toList,
     "nov".toList, "dic".toList]
  | fr =>
    ["janvier".toList, "février".toList, "mars".toList, "avril".toList,
     "mai".toList, "juin".toList, "juillet".toList, "août".toList,
     "septembre".toList, "octobre".toList, "novembre".toList, "décembre".toList,
     "janv".toList, "févr".toList, "mars".toList, "avr".toList, "mai".toList,
     "juin".toList, "juil".toList, "août".toList, "sept".toList, "oct".toList,
     "nov".toList, "déc".toList]
  | de =>
    ["januar".toList, "februar".toList, "märz".toList, "april".toList,
     "mai".toList, "juni".toList, "juli".toList, "august".toList,
     "september".toList, "oktober".toList, "november".toList, "dezember".toList,
     "jan".toList, "feb".toList, "mär".toList, "apr".toList, "mai".toList,
     "jun".toList, "jul".toList, "aug".toList, "sep".toList, "okt".toList,
     "nov".toList, "dez".toList]
  | ar =>
    ["يناير".toList, "فبراير".toList, "مارس".toList, "أبريل".toList,
     "مايو".toList, "يونيو".toList, "يوليو".toList, "أغسطس".toList,
     "سبتمبر".toList, "أكتوبر".toList, "نوفمبر".toList, "ديسمبر".toList]
  | ko =>
    ["1월".toList, "2월".toList, "3월".toList, "4월".toList, "5월".toList,
     "6월".toList, "7월".toList, "8월".toList, "9월".toList, "10월".toList,
     "11월".toList, "12월".toList]
  | ru =>
    ["январь".toList, "февраль".toList, "март".toList, "апрель".toList,
     "май".toList, "июнь".toList, "июль".toList, "август".toList,
     "сентябрь".toList, "октябрь".toList, "ноябрь".toList, "декабрь".toList,
     "янв".toList, "фев".toList, "мар".toList, "апр".toList, "май".toList,
     "июн".toList, "июл".toList, "авг".toList, "сен".toList, "окт".toList,
     "ноя".toList, "дек".toList]

/-- Transcription of `self.warning_words`. -/
def warningWords : Lang → List Txt
  | en =>
    ["required".toList, "must".toList, "mandatory".toList, "warning".toList,
     "notice".toList, "important".toList, "attention".toList]
  | ja =>
    ["必須".toList, "必要".toList, "注意".toList, "警告".toList, "重要".toList,
     "お知らせ".toList, "義務".toList]
  | zh =>
    ["必需".toList, "必须".toList, "必須".toList, "注意".toList, "警告".toList,
     "重要".toList, "通知".toList, "强制".toList, "強制".toList]
  | es =>
    ["requerido".toList, "obligatorio".toList, "advertencia".toList,
     "aviso".toList, "importante".toList, "atención".toList]
  | fr =>
    ["requis".toList, "obligatoire".toList, "avertissement".toList,
     "avis".toList, "important".toList, "attention".toList]
  | de =>
    ["erforderlich".toList, "pflicht".toList, "warnung".toList,
     "hinweis".toList, "wichtig".toList, "achtung".toList]
  | ar =>
    ["مطلوب".toList, "إجباري".toList, "تحذير".toList, "إشعار".toList,
     "مهم".toList, "انتباه".toList]
  | ko =>
    ["필수".toList, "필요".toList, "주의".toList, "경고".toList, "중요".toList,
     "알림".toList, "의무".toList]
  | ru =>
    ["обязательно".toList, "необходимо".toList, "предупреждение".toList,
     "уведомление".toList, "важно".toList, "внимание".toList]

/-! ### Language detection (`detect_language`) -/

/-- Latin branch of `detect_language`: scan the lower-cased text for each
language's keywords, in dict iteration order restricted to
`['en', 'es', 'fr', 'de']`; return the first language with a match,
else `en`. -/
def latinKeywordLang (textLower : Txt) : Lang :=
  match [en, es, fr, de].find? (fun l => (allKeywords l).any (fun k => containsT textLower k)) with
  | some l => l
  | none => en

/-- Embedding of `detect_language`.  Script counts cover Basic Latin,
CJK (ideographs + kana), Arabic and Cyrillic; `max` with first-wins tie
breaking follows dict insertion order (latin, cjk, arabic, cyrillic). -/
def detectLanguage (t : Txt) : Lang :=
  if t.isEmpty then en
  else
    let nLat := t.countP isLatinCh
    let nCjk := t.countP (fun c => isCjkCh c || isKanaCh c)
    let nAra := t.countP isArabCh
    let nCyr := t.countP isCyrCh
    if nLat ≥ nCjk ∧ nLat ≥ nAra ∧ nLat ≥ nCyr then latinKeywordLang (lowerT t)
    else if nCjk ≥ nAra ∧ nCjk ≥ nCyr then
      if t.any isKanaCh then ja
      else if t.any isHangulCh then ko
      else zh
    else if nAra ≥ nCyr then ar
    else ru

/-- Embedding of `languages_to_check` as computed throughout the source:
`[detected_lang, 'en'] if detected_lang != 'en' else ['en']`. -/
def languagesToCheck (l : Lang) : List Lang :=
  if l = en then [en] else [l, en]

/-! ### Text normalisation (`clean_extracted_text`)

Each `re.sub` is a left-to-right scan replacing non-overlapping matches and
continuing after each consumed match, exactly as Python's `re.sub` does.
The scanners carry the previous character for `\b` and one unit of fuel per
consumed character (each step consumes at least one character, so fuel
`length + 1` never runs out). -/

/-- Scanner for `re.sub(r'\b([A-Z])\s+([a-z]{2,})\b', r'\1\2', text)`:
a lone capital rejoined to a following run of two or more lowercase
letters. -/
def sub1Aux : Nat → Option Char → Txt → Txt
  | 0, _, t => t
  | _ + 1, _, [] => []
  | n + 1, prev, c :: t =>
    let boundary := match prev with | none => true | some p => !isWordCh p
    if boundary && isUpperA c then
      let ws := t.takeWhile pySpace
      let t2 := t.dropWhile pySpace
      let low := t2.takeWhile isLowerA
      let t3 := t2.dropWhile isLowerA
      if ws.length ≥ 1 && low.length ≥ 2 &&
          (match t3.head? with | none => true | some d => !isWordCh d) then
        c :: low ++ sub1Aux n (some (low.getLastD c)) t3
      else c :: sub1Aux n (some c) t
    else c :: sub1Aux n (some c) t

/-- Scanner for `re.sub(r'\b([A-Z])\s+([A-Z]{2,})\b', r'\1\2', text)`. -/
def sub2Aux : Nat → Option Char → Txt → Txt
  | 0, _, t => t
  | _ + 1, _, [] => []
  | n + 1, prev, c :: t =>
    let boundary := match prev with | none => true | some p => !isWordCh p
    if boundary && isUpperA c then
      let ws := t.takeWhile pySpace
      let t2 := t.dropWhile pySpace
      let up := t2.takeWhile isUpperA
      let t3 := t2.dropWhile isUpperA
      if ws.length ≥ 1 && up.length ≥ 2 &&
          (match t3.head? with | none => true | some d => !isWordCh d) then
        c :: up ++ sub2Aux n (some (up.getLastD c)) t3
      else c :: sub2Aux n (some c) t
    else c :: sub2Aux n (some c) t

/-- Common-suffix whitelist of the third substitution. -/
def joinSuffixes : List Txt :=
  ["ou".toList, "he".toList, "er".toList, "ed".toList, "ly".toList, "ng".toList]

/-- Scanner for the third substitution
`re.sub(r'\b([a-z])\s+([a-z]{2})\b', …, text)` whose replacement joins the
pair only when the two-letter group is one of `joinSuffixes`; a match with a
group outside the list is left verbatim but still consumed. -/
def sub3Aux : Nat → Option Char → Txt → Txt
  | 0, _, t => t
  | _ + 1, _, [] => []
  | n + 1, prev, c :: t =>
    let boundary := match prev with | none => true | some p => !isWordCh p
    if boundary && isLowerA c then
      let ws := t.takeWhile pySpace
      let t2 := t.dropWhile pySpace
      let low := t2.takeWhile isLowerA
      let t3 := t2.dropWhile isLowerA
      if ws.length ≥ 1 && low.length = 2 &&
          (match t3.head? with | none => true | some d => !isWordCh d) then
        if joinSuffixes.contains low then
          c :: low ++ sub3Aux n (some (low.getLastD c)) t3
        else
          c :: ws ++ low ++ sub3Aux n (some (low.getLastD c)) t3
      else c :: sub3Aux n (some c) t
    else c :: sub3Aux n (some c) t

/-- Scanner for `re.sub(r'\s+', ' ', text)`: collapse whitespace runs. -/
def collapseWsAux : Txt → Bool → Txt
  | [], _ => []
  | c :: t, prevSp =>
    if pySpace c then
      if prevSp then collapseWsAux t true else ' ' :: collapseWsAux t true
    else c :: collapseWsAux t false

/-- Punctuation class `[!?.,;:]` of the spacing substitutions. -/
def isPunctCh (c : Char) : Bool :=
  c = '!' || c = '?' || c = '.' || c = ',' || c = ';' || c = ':'

/-- Scanner for `re.sub(r'\s+([!?.,;:])', r'\1', text)`: drop whitespace
runs immediately preceding punctuation. -/
def punct1Aux : Nat → Txt → Txt
  | 0, t => t
  | _ + 1, [] => []
  | n + 1, c :: t =>
    if pySpace c then
      let rest := (c :: t).dropWhile pySpace
      match rest with
      | d :: r =>
        if isPunctCh d then d :: punct1Aux n r
        else (c :: t).takeWhile pySpace ++ punct1Aux n rest
      | [] => (c :: t).takeWhile pySpace ++ punct1Aux n []
    else c :: punct1Aux n t

/-- Scanner for `re.sub(r'([!?.,;:])\s*([!?.,;:])', r'\1\2', text)`: drop
spaces between adjacent punctuation marks. -/
def punct2Aux : Nat → Txt → Txt
  | 0, t => t
  | _ + 1, [] => []
  | n + 1, c :: t =>
    if isPunctCh c then
      let rest := t.dropWhile pySpace
      match rest with
      | d :: r =>
        if isPunctCh d then c :: d :: punct2Aux n r
        else c :: punct2Aux n t
      | [] => c :: punct2Aux n t
    else c :: punct2Aux n t

/-- Embedding of `clean_extracted_text`. -/
def cleanExtractedText (t : Txt) (isHeading : Bool) : Txt :=
  if t.isEmpty then t
  else
    let t1 := sub1Aux (t.length + 1) none t
    let t2 := sub2Aux (t1.length + 1) none t1
    let t3 := sub3Aux (t2.length + 1) none t2
    let t4 := collapseWsAux t3 false
    let t5 := punct1Aux (t4.length + 1) t4
    let t6 := punct2Aux (t5.length + 1) t5
    let c := pyStrip t6
    if isHeading && !c.isEmpty && !endsT c [' '] then c ++ [' '] else c

/-! ### Title deduplication (`smart_deduplicate_title`) -/

/-- Characters of `strip('.,!?:;')` used throughout title deduplication. -/
def strip6 : List Char := ['.', ',', '!', '?', ':', ';']

/-- Words preserved regardless of the substring logic. -/
def preservedWords : List Txt :=
  ["a".toList, "an".toList, "of".toList, "in".toList, "on".toList,
   "to".toList, "by".toList, "for".toList, "at".toList, "as".toList]

/-- Whether `\b<needle>\b` matches inside `hay` (`re.search` with escaped
needle and word boundaries on both sides). -/
def wordBoundSearch (needle hay : Txt) : Bool :=
  let wordOpt : Option Char → Bool := fun o =>
    match o with | none => false | some c => isWordCh c
  (List.range (hay.length + 1)).any (fun i =>
    startsT (hay.drop i) needle &&
    (wordOpt (if i = 0 then none else (hay.drop (i - 1)).head?) != wordOpt needle.head?) &&
    (wordOpt needle.getLast? != wordOpt (hay.drop (i + needle.length)).head?))

/-- The inner `for j, other_word in enumerate(words)` loop deciding whether
word `i` survives the substring heuristics. -/
def shouldKeepWord (words : List Txt) (i : Nat) (cw : Txt) : Bool :=
  !(words.enum.any (fun jw =>
    let j := jw.1
    let co := lowerT (stripSet strip6 jw.2)
    decide (j ≠ i) && decide (cw ≠ co) && containsT co cw &&
      ((decide (cw.length ≤ 3) && decide (co.length - cw.length ≥ 2) &&
          (startsT co cw || endsT co cw)) ||
       (decide (cw.length ≥ 4) && decide (co.length - cw.length ≥ 2) &&
          !wordBoundSearch cw co))))

/-- Main filtering loop of `smart_deduplicate_title` over the enumerated
word list, carrying the accumulated `filtered_words` reversed. -/
def sdtLoop (words : List Txt) : List (Nat × Txt) → List Txt → List Txt
  | [], acc => acc.reverse
  | (i, w) :: rest, acc =>
    let cw := lowerT (stripSet strip6 w)
    if preservedWords.contains cw then sdtLoop words rest (w :: acc)
    else if shouldKeepWord words i cw then
      if acc.any (fun e => lowerT (stripSet strip6 e) = cw) then
        sdtLoop words rest acc
      else sdtLoop words rest (w :: acc)
    else sdtLoop words rest acc

/-- Embedding of `smart_deduplicate_title`. -/
def smartDeduplicateTitle (title : Txt) : Txt :=
  let words0 := splitWs title
  let words := words0.filter (fun w =>
    decide ((stripSet strip6 w).length > 1) || lowerT (stripSet strip6 w) = ['a'])
  joinSpace (sdtLoop words words.enum [])

/-! ### Parsing helpers for the hand-translated regular expressions -/

/-- Consume `\s+` (at least one whitespace character). -/
def eatWs1 (t : Txt) : Option Txt :=
  match t.head? with
  | some c => if pySpace c then some (t.dropWhile pySpace) else none
  | none => none

/-- Consume `\s*`. -/
def eatWs0 (t : Txt) : Txt := t.dropWhile pySpace

/-- Consume `\d+` (at least one ASCII digit). -/
def eatDigits1 (t : Txt) : Option Txt :=
  match t.head? with
  | some c => if isDigitCh c then some (t.dropWhile isDigitCh) else none
  | none => none

/-- Length of the maximal leading digit run. -/
def digitRunLen (t : Txt) : Nat := (t.takeWhile isDigitCh).length

/-- Consume a literal keyword case-insensitively. -/
def eatCI (k t : Txt) : Option Txt :=
  if startsCIT t k then some (t.drop k.length) else none

/-- Whether the head character satisfies `p` (false at end of string). -/
def headIs (p : Char → Bool) (t : Txt) : Bool :=
  match t.head? with | some c => p c | none => false

/-- A `\b` right boundary after a word character: next is non-word or end. -/
def nonWordOrEnd (t : Txt) : Bool :=
  match t.head? with | none => true | some c => !isWordCh c

/-- Bold test `bool(flags & 16)` used throughout the source. -/
def isBoldFlags (f : Nat) : Bool := decide (f &&& 16 ≠ 0)

/-! ### Span/line/page data model (collaborator outputs)

Spans come from the PDF-decoding collaborator; rotation is carried as a
field in degrees (the source derives it from the span transform matrix with
`atan2`; trigonometry is outside the rational model, and §3 of the design
treats rotation as span data). -/

/-- One text span as reported by the decoder. -/
structure Span where
  text : Txt
  size : ℚ
  flags : Nat
  rotation : ℚ
deriving DecidableEq

/-- Axis-aligned rectangle `(x0, y0, x1, y1)`. -/
structure Rect where
  x0 : ℚ
  y0 : ℚ
  x1 : ℚ
  y1 : ℚ
deriving DecidableEq

/-- One line: bounding box plus spans. -/
structure Line where
  bbox : Rect
  spans : List Span
deriving DecidableEq

/-- Fallback line used for out-of-range indexing (never reached on the
index ranges the loops produce). -/
def dfltLine : Line := { bbox := ⟨0, 0, 0, 0⟩, spans := [] }

/-! ### Noise filter (`should_skip_text`): table-of-contents row patterns -/

/-- Pattern `.*\.{3,}.*` — contains a run of three or more dots. -/
def tocRow1 (t : Txt) : Bool := containsRun '.' 3 t

/-- Pattern `.*\.{2,}\s*\d+\s*$` — two or more dots, optional space, page
number at end. -/
def tocRow2 (t : Txt) : Bool :=
  let r := t.reverse.dropWhile pySpace
  let ds := r.takeWhile isDigitCh
  let r2 := (r.dropWhile isDigitCh).dropWhile pySpace
  decide (ds.length ≥ 1) && decide ((r2.takeWhile (fun c => c = '.')).length ≥ 2)

/-- Pattern `.*\s+\.+\s*\d+\s*$` — whitespace, dots, page number at end. -/
def tocRow3 (t : Txt) : Bool :=
  let r := t.reverse.dropWhile pySpace
  let ds := r.takeWhile isDigitCh
  let r2 := (r.dropWhile isDigitCh).dropWhile pySpace
  let dots := r2.takeWhile (fun c => c = '.')
  decide (ds.length ≥ 1) && decide (dots.length ≥ 1) &&
    headIs pySpace (r2.dropWhile (fun c => c = '.'))

/-- Pattern `.*\s+\d+\s*$` — text ending with a standalone page number. -/
def tocRow4 (t : Txt) : Bool :=
  let r := t.reverse.dropWhile pySpace
  let ds := r.takeWhile isDigitCh
  decide (ds.length ≥ 1) && headIs pySpace (r.dropWhile isDigitCh)

/-- Disjunction of the four `toc_patterns`, applied to `text.strip()`. -/
def tocRowMatch (t : Txt) : Bool := tocRow1 t || tocRow2 t || tocRow3 t || tocRow4 t

/-- One alternative `<appendix-keyword>\s+[A-Z0-9]+:` of the ToC exception
regex (IGNORECASE, so the class is ASCII letters and digits). -/
def appendixColon (k t : Txt) : Bool :=
  match eatCI k t with
  | none => false
  | some r =>
    match eatWs1 r with
    | none => false
    | some r2 =>
      let run := r2.takeWhile (fun c => isLatinCh c || isDigitCh c)
      decide (run.length ≥ 1) &&
        headIs (fun c => c = ':') (r2.drop run.length)

/-- Exception regex `^(?:{toc}|{appendix}\s+[A-Z0-9]+:).*$` guarding the
ToC-row exclusion, built from the keyword tables of `languages_to_check`. -/
def tocException (langs : List Lang) (t : Txt) : Bool :=
  let tocKs := langs.flatMap (fun l => (headingKeywords l).tableOfContents)
  let appKs := langs.flatMap (fun l => (headingKeywords l).appendix)
  startsAnyCI t tocKs || appKs.any (fun k => appendixColon k t)

/-! ### Noise filter: warning and instruction patterns -/

/-- The language-dependent dress-code word list
(`"鞋|衣服|着装" if zh, "靴|服装" if ja, else "shoes?|clothing|dress code|attire"`;
`shoes?` contains `shoe`, which is what containment requires). -/
def dressWords : Lang → List Txt
  | zh => ["鞋".toList, "衣服".toList, "着装".toList]
  | ja => ["靴".toList, "服装".toList]
  | _ => ["shoe".toList, "clothing".toList, "dress code".toList, "attire".toList]

/-- Pattern `.*(?:X).*(?:W).*` — some `x` occurrence followed later by some
`w` occurrence (both case-insensitive). -/
def containsThenCI (hay : Txt) (xs ws : List Txt) : Bool :=
  (List.range (hay.length + 1)).any (fun i =>
    xs.any (fun x =>
      startsCIT (hay.drop i) x && containsAnyCI (hay.drop (i + x.length)) ws))

/-- Universal pattern `.*\.COM\b.*` (IGNORECASE). -/
def univDotCom (t : Txt) : Bool :=
  (List.range (t.length + 1)).any (fun i =>
    startsCIT (t.drop i) (".com".toList) && nonWordOrEnd (t.drop (i + 4)))

/-- Universal pattern `.*@.*\..*` — an `@` with a dot somewhere after it. -/
def univAtDot (t : Txt) : Bool :=
  (List.range t.length).any (fun i =>
    headIs (fun c => c = '@') (t.drop i) && (t.drop (i + 1)).any (fun c => c = '.'))

/-- Instruction keywords of the all-caps universal pattern. -/
def instrKws : List Txt :=
  ["required".toList, "must".toList, "should".toList, "please".toList, "visit".toList]

/-- Universal pattern `^[A-Z\s]+(?:REQUIRED|MUST|SHOULD|PLEASE|VISIT).*`
under IGNORECASE (`[A-Z]` then matches any ASCII letter). -/
def capsInstrAux : Txt → Bool
  | [] => false
  | c :: rest =>
    (isLatinCh c || pySpace c) && (startsAnyCI rest instrKws || capsInstrAux rest)

/-- Disjunction of all `warning_patterns` for `languages_to_check`,
applied to `text.strip()` with IGNORECASE. -/
def warningMatch (langs : List Lang) (t : Txt) : Bool :=
  langs.any (fun l =>
    containsAnyCI t (warningWords l) ||
    containsThenCI t (dressWords l) (warningWords l)) ||
  univDotCom t || containsCIT t ("www.".toList) || univAtDot t || capsInstrAux t

/-- The over-60-characters instructional check: some warning word of the
checked languages occurs in `text.upper()` (the words are kept verbatim, so
lowercase English words can never match — a quirk preserved from the
source). -/
def longInstruction (langs : List Lang) (t : Txt) : Bool :=
  (langs.flatMap warningWords).any (fun w => containsT (upperT t) w)

/-! ### Noise filter: the numbered-heading special case -/

/-- Pattern `^\d+\.\s+[A-Z一-鿿぀-ゟ゠-ヿ가-힯]`
(no IGNORECASE), applied to `text.strip()`. -/
def numberedHeadingStart (t : Txt) : Bool :=
  match eatDigits1 t with
  | none => false
  | some r =>
    match r with
    | '.' :: r2 =>
      match eatWs1 r2 with
      | none => false
      | some r3 =>
        headIs (fun c => isUpperA c || isCjkCh c || isKanaCh c || isHangulCh c) r3
    | _ => false

/-- Character class of the bold-span letter search
`[A-Za-z一-鿿぀-ゟ゠-ヿ가-힯؀-ۿЀ-ӿ]`. -/
def letterSearchCh (c : Char) : Bool :=
  isLatinCh c || isCjkCh c || isKanaCh c || isHangulCh c || isArabCh c || isCyrCh c

/-- Whether some span whose stripped text contains a letter is bold
(`main_text_bold` of the source). -/
def anyBoldLetterSpan (ss : List Span) : Bool :=
  ss.any (fun s =>
    let st := pyStrip s.text
    !st.isEmpty && st.any letterSearchCh && isBoldFlags s.flags)

/-! ### Noise filter: address patterns (`address_patterns`, IGNORECASE) -/

/-- Character class `[A-Za-z\s一-鿿぀-ゟ゠-ヿ가-힯]`
of the street-address pattern. -/
def a1Class (c : Char) : Bool :=
  isLatinCh c || pySpace c || isCjkCh c || isKanaCh c || isHangulCh c

/-- Street suffix alternatives with their `\b` requirements. -/
def a1Suffixes : List (Txt × Bool) :=
  [("street".toList, false), ("st".toList, true), ("avenue".toList, false),
   ("ave".toList, true), ("road".toList, false), ("rd".toList, true),
   ("drive".toList, false), ("dr".toList, true), ("lane".toList, false),
   ("ln".toList, true), ("parkway".toList, false), ("pkwy".toList, false),
   ("boulevard".toList, false), ("blvd".toList, true), ("街".toList, false),
   ("路".toList, false), ("町".toList, false), ("丁目".toList, false)]

/-- Whether some street suffix matches at this position. -/
def a1Suffix (t : Txt) : Bool :=
  a1Suffixes.any (fun kb =>
    startsCIT t kb.1 && (!kb.2 || nonWordOrEnd (t.drop kb.1.length)))

/-- Scan `[class]+(?:suffix)`: consume at least one class character, trying
the suffix alternatives after each. -/
def a1Scan : Txt → Bool
  | [] => false
  | c :: rest => a1Class c && (a1Suffix rest || a1Scan rest)

/-- Pattern `^\d+\s+[A-Za-z\s…]+(?:street|st\b|…|丁目)`. -/
def addr1 (t : Txt) : Bool :=
  match eatDigits1 t with
  | none => false
  | some r =>
    match r with
    | c :: rest => pySpace c && a1Scan rest
    | [] => false

/-- Pattern `^[A-Z]{2}\s+\d{5}(?:-\d{4})?$` (IGNORECASE). -/
def addr2 (t : Txt) : Bool :=
  match t with
  | c1 :: c2 :: r =>
    isLatinCh c1 && isLatinCh c2 &&
      (match eatWs1 r with
       | none => false
       | some r2 =>
         let n := digitRunLen r2
         decide (n = 5) &&
           (match r2.drop 5 with
            | [] => true
            | '-' :: r3 => decide (digitRunLen r3 = 4) && (r3.drop 4).isEmpty
            | _ => false))
  | _ => false

/-- Tail `,\s*[A-Z]{2}\s+\d{5}$` of the city-state-zip pattern. -/
def a3Tail (t : Txt) : Bool :=
  match eatWs0 t with
  | c1 :: c2 :: r =>
    isLatinCh c1 && isLatinCh c2 &&
      (match eatWs1 r with
       | none => false
       | some r2 => decide (digitRunLen r2 = 5) && (r2.drop 5).isEmpty)
  | _ => false

/-- Word loop of `^[A-Z][a-z]+(?:\s+[A-Z][a-z]+)*,…` — capitalised words
(≥ 2 letters under IGNORECASE) separated by whitespace, then the comma
tail. -/
def a3Loop : Nat → Txt → Bool
  | 0, _ => false
  | n + 1, t =>
    let run := t.takeWhile isLatinCh
    let r := t.dropWhile isLatinCh
    decide (run.length ≥ 2) &&
      (match r with
       | ',' :: r2 => a3Tail r2
       | _ =>
         match eatWs1 r with
         | some r2 => a3Loop n r2
         | none => false)

/-- Pattern `^[A-Z][a-z]+(?:\s+[A-Z][a-z]+)*,\s*[A-Z]{2}\s+\d{5}$`. -/
def addr3 (t : Txt) : Bool := a3Loop (t.length + 1) t

/-- Keywords of `^(?:Suite|Ste|Apt|Unit|Building|Bldg|Floor|Fl|号室|階)\b.*\d+`. -/
def a4Kws : List Txt :=
  ["suite".toList, "ste".toList, "apt".toList, "unit".toList,
   "building".toList, "bldg".toList, "floor".toList, "fl".toList,
   "号室".toList, "階".toList]

/-- Pattern `^(?:Suite|…|階)\b.*\d+`. -/
def addr4 (t : Txt) : Bool :=
  a4Kws.any (fun k =>
    startsCIT t k && nonWordOrEnd (t.drop k.length) &&
      (t.drop k.length).any isDigitCh)

/-- Disjunction of `address_patterns`. -/
def addressMatch (t : Txt) : Bool := addr1 t || addr2 t || addr3 t || addr4 t

/-! ### Noise filter: form-field patterns (`form_patterns`, IGNORECASE) -/

/-- Pattern `^[_\-]{3,}$`. -/
def form1 (t : Txt) : Bool :=
  decide (t.length ≥ 3) && t.all (fun c => c = '_' || c = '-')

/-- Keyword list of the labelled-field pattern. -/
def f2Kws : List Txt :=
  ["rsvp".toList, "name".toList, "date".toList, "time".toList, "phone".toList,
   "email".toList, "address".toList, "sign".toList, "signature".toList,
   "title".toList, "age".toList, "名前".toList, "日付".toList, "時間".toList,
   "電話".toList, "メール".toList, "住所".toList, "署名".toList,
   "タイトル".toList, "年齢".toList, "姓名".toList, "日期".toList,
   "时间".toList, "电话".toList, "邮箱".toList, "地址".toList, "签名".toList,
   "标题".toList, "年龄".toList]

/-- Trailing `[\s:]*$`. -/
def tailWsColon (t : Txt) : Bool := t.all (fun c => pySpace c || c = ':')

/-- Pattern `^\s*(?:RSVP|Name|…|年龄)[\s:]*$`. -/
def form2 (t : Txt) : Bool :=
  let r := eatWs0 t
  f2Kws.any (fun k => startsCIT r k && tailWsColon (r.drop k.length))

/-- Pattern `^\s*(?:Signature\s+of\s+\w+|署名者|签名者).*$`. -/
def form3 (t : Txt) : Bool :=
  let r := eatWs0 t
  startsCIT r ("署名者".toList) || startsCIT r ("签名者".toList) ||
    (match eatCI ("signature".toList) r with
     | none => false
     | some r2 =>
       match eatWs1 r2 with
       | none => false
       | some r3 =>
         match eatCI ("of".toList) r3 with
         | none => false
         | some r4 =>
           match eatWs1 r4 with
           | none => false
           | some r5 => headIs isWordCh r5)

/-- Pattern `^\s*(?:Yes|No|Maybe|はい|いいえ|たぶん|是|否|也许)[\s:]*$`. -/
def form4 (t : Txt) : Bool :=
  let r := eatWs0 t
  ["yes".toList, "no".toList, "maybe".toList, "はい".toList, "いいえ".toList,
   "たぶん".toList, "是".toList, "否".toList, "也许".toList].any
    (fun k => startsCIT r k && tailWsColon (r.drop k.length))

/-- Both continuations of an optional `\.?`. -/
def optDotBranches (t : Txt) : List Txt :=
  match t with
  | '.' :: r => [t, r]
  | _ => [t]

/-- Pattern `^(?:S\.?No\.?|Sl\.?No\.?|Sr\.?No\.?|Serial\s*No\.?|Serial\s*Number|番号|序号)[\s:]*$`. -/
def form7 (t : Txt) : Bool :=
  let sNo := ["s".toList, "sl".toList, "sr".toList].any (fun p =>
    match eatCI p t with
    | none => false
    | some r1 =>
      (optDotBranches r1).any (fun r2 =>
        match eatCI ("no".toList) r2 with
        | none => false
        | some r3 => (optDotBranches r3).any tailWsColon))
  let serialNo :=
    match eatCI ("serial".toList) t with
    | none => false
    | some r1 =>
      let r2 := eatWs0 r1
      (match eatCI ("no".toList) r2 with
       | none => false
       | some r3 => (optDotBranches r3).any tailWsColon) ||
      (match eatCI ("number".toList) r2 with
       | none => false
       | some r3 => tailWsColon r3)
  let cjk :=
    ["番号".toList, "序号".toList].any (fun k =>
      startsCIT t k && tailWsColon (t.drop k.length))
  sNo || serialNo || cjk

/-- Keywords of `^\d+\.\s*(?:Amount|Name|Address|Details?|Signature|…).*$`
(the optional `s` of `Details?` is absorbed by the trailing `.*`). -/
def f8Kws : List Txt :=
  ["amount".toList, "name".toList, "address".toList, "detail".toList,
   "signature".toList, "金額".toList, "名前".toList, "住所".toList,
   "詳細".toList, "署名".toList, "金额".toList, "姓名".toList,
   "地址".toList, "详情".toList, "签名".toList]

/-- Pattern `^\d+\.\s*(?:Amount|…|签名).*$`. -/
def form8 (t : Txt) : Bool :=
  match eatDigits1 t with
  | none => false
  | some r =>
    match r with
    | '.' :: r2 => startsAnyCI (eatWs0 r2) f8Kws
    | _ => false

/-- Pattern `^(?:Relationship|Amount|Signature|Details?|関係|金額|署名|詳細|关系|金额|签名|详情)[\s:]*$`. -/
def form9 (t : Txt) : Bool :=
  ["relationship".toList, "amount".toList, "signature".toList,
   "details".toList, "detail".toList, "関係".toList, "金額".toList,
   "署名".toList, "詳細".toList, "关系".toList, "金额".toList,
   "签名".toList, "详情".toList].any (fun k =>
    startsCIT t k && tailWsColon (t.drop k.length))

/-- Pattern `^[.\s]{5,}$`. -/
def form10 (t : Txt) : Bool :=
  decide (t.length ≥ 5) && t.all (fun c => c = '.' || pySpace c)

/-- Pattern `^\.{5,}$`. -/
def form11 (t : Txt) : Bool :=
  decide (t.length ≥ 5) && t.all (fun c => c = '.')

/-- Pattern `^\s*\.+\s*$`. -/
def form12 (t : Txt) : Bool :=
  let r := eatWs0 t
  let dots := r.takeWhile (fun c => c = '.')
  decide (dots.length ≥ 1) && (r.dropWhile (fun c => c = '.')).all pySpace

/-- Bullet glyph class `[•·▪▫■□○●◦‣⁃・※]`. -/
def bulletCh (c : Char) : Bool :=
  c = '•' || c = '·' || c = '▪' || c = '▫' || c = '■' || c = '□' ||
  c = '○' || c = '●' || c = '◦' || c = '‣' || c = '⁃' || c = '・' || c = '※'

/-- Pattern `^\s*[•·▪▫■□○●◦‣⁃・※]\s+`. -/
def form14 (t : Txt) : Bool :=
  match eatWs0 t with
  | c :: r => bulletCh c && headIs pySpace r
  | [] => false

/-- Pattern `^\s*[-*+]\s+`. -/
def form15 (t : Txt) : Bool :=
  match eatWs0 t with
  | c :: r => (c = '-' || c = '*' || c = '+') && headIs pySpace r
  | [] => false

/-- Pattern `^\s*\d+[\.\)]\s+[a-z][a-z]` — under IGNORECASE the two final
classes match any ASCII letters. -/
def form16 (t : Txt) : Bool :=
  match eatDigits1 (eatWs0 t) with
  | none => false
  | some r =>
    match r with
    | c :: r2 =>
      (c = '.' || c = ')') &&
        (match eatWs1 r2 with
         | none => false
         | some r3 =>
           match r3 with
           | a :: b :: _ => isLatinCh a && isLatinCh b
           | _ => false)
    | [] => false

/-- Pattern `^\s*[a-zA-Z][\.\)]\s+`. -/
def form17 (t : Txt) : Bool :=
  match eatWs0 t with
  | c :: d :: r => isLatinCh c && (d = '.' || d = ')') && headIs pySpace r
  | _ => false

/-- Roman numeral letter class `[ivxlcdm]` (IGNORECASE). -/
def romanCh (c : Char) : Bool :=
  let l := pyLower c
  l = 'i' || l = 'v' || l = 'x' || l = 'l' || l = 'c' || l = 'd' || l = 'm'

/-- Pattern `^\s*[ivxlcdm]+[\.\)]\s+`. -/
def form18 (t : Txt) : Bool :=
  let r := eatWs0 t
  let run := r.takeWhile romanCh
  decide (run.length ≥ 1) &&
    (match r.dropWhile romanCh with
     | c :: r2 => (c = '.' || c = ')') && headIs pySpace r2
     | [] => false)

/-- Pattern `^\s*\([a-zA-Z0-9]+\)\s+`. -/
def form19 (t : Txt) : Bool :=
  match eatWs0 t with
  | '(' :: r =>
    let run := r.takeWhile (fun c => isLatinCh c || isDigitCh c)
    decide (run.length ≥ 1) &&
      (match r.dropWhile (fun c => isLatinCh c || isDigitCh c) with
       | ')' :: r2 => headIs pySpace r2
       | _ => false)
  | _ => false

/-- Pattern `.*\s+\.\s*\*\s*$` — text ending with `. *`. -/
def form20 (t : Txt) : Bool :=
  let r := t.reverse.dropWhile pySpace
  match r with
  | '*' :: r2 =>
    (match (r2.dropWhile pySpace) with
     | '.' :: r3 => headIs pySpace r3
     | _ => false)
  | _ => false

/-- Pattern `^[a-z].*\s+\.$` (IGNORECASE) — a sentence fragment ending in a
space-separated period. -/
def form21 (t : Txt) : Bool :=
  headIs isLatinCh t &&
    (match t.reverse with
     | '.' :: r => headIs pySpace r
     | _ => false)

/-- Pattern `^\s*(?:the|this|these|that|those|これ|その|あの|この|该|这|那)\s+`. -/
def form22 (t : Txt) : Bool :=
  let r := eatWs0 t
  ["the".toList, "this".toList, "these".toList, "that".toList, "those".toList,
   "これ".toList, "その".toList, "あの".toList, "この".toList, "该".toList,
   "这".toList, "那".toList].any (fun k =>
    startsCIT r k && headIs pySpace (r.drop k.length))

/-- Pattern `.*\s+(?:years?|年|年間|岁|歲)\s*[\.\*]*$`
(`years?` is covered by the alternatives `years` and `year`). -/
def form23 (t : Txt) : Bool :=
  let r := ((t.reverse.dropWhile (fun c => c = '.' || c = '*')).dropWhile pySpace)
  ["years".toList, "year".toList, "年".toList, "年間".toList, "岁".toList,
   "歲".toList].any (fun k =>
    startsCIT r k.reverse && headIs pySpace (r.drop k.length))

/-- Pattern `^.*\s+(?:and|or|と|または|和|或者)\s*$`. -/
def form24 (t : Txt) : Bool :=
  let r := t.reverse.dropWhile pySpace
  ["and".toList, "or".toList, "と".toList, "または".toList, "和".toList,
   "或者".toList].any (fun k =>
    startsCIT r k.reverse && headIs pySpace (r.drop k.length))

/-- Pattern `^.*\s+(?:of|in|to|for|with|by|at|on|の|に|で|から|へ|的|在|到|为|和|由|在)\s*$`. -/
def form25 (t : Txt) : Bool :=
  let r := t.reverse.dropWhile pySpace
  ["of".toList, "in".toList, "to".toList, "for".toList, "with".toList,
   "by".toList, "at".toList, "on".toList, "の".toList, "に".toList,
   "で".toList, "から".toList, "へ".toList, "的".toList, "在".toList,
   "到".toList, "为".toList, "和".toList, "由".toList, "在".toList].any
    (fun k => startsCIT r k.reverse && headIs pySpace (r.drop k.length))

/-- Disjunction of `form_patterns` in source order (patterns 5, 6 and 13 are
the `___`/`---`/`...`-run containments). -/
def formMatch (t : Txt) : Bool :=
  form1 t || form2 t || form3 t || form4 t ||
  containsRun '_' 3 t || containsRun '-' 3 t ||
  form7 t || form8 t || form9 t || form10 t || form11 t || form12 t ||
  containsRun '.' 3 t ||
  form14 t || form15 t || form16 t || form17 t || form18 t || form19 t ||
  form20 t || form21 t || form22 t || form23 t || form24 t || form25 t

/-! ### Noise filter: web/contact patterns (`web_patterns`, IGNORECASE) -/

/-- Top-level domain alternatives. -/
def tlds : List Txt :=
  ["com".toList, "org".toList, "net".toList, "edu".toList, "gov".toList,
   "mil".toList, "biz".toList, "info".toList, "io".toList, "co".toList,
   "uk".toList, "us".toList, "jp".toList, "cn".toList, "kr".toList]

/-- Character class `[a-zA-Z0-9\-\.]` of the URL body. -/
def w1Class (c : Char) : Bool :=
  isLatinCh c || isDigitCh c || c = '-' || c = '.'

/-- Whether `\.(?:com|org|…)` matches at this position. -/
def w1Dot (t : Txt) : Bool :=
  match t with
  | '.' :: r => tlds.any (fun tl => startsCIT r tl)
  | _ => false

/-- Scan `[a-zA-Z0-9\-\.]+\.(?:tld)` — at least one class character, then a
dot and a TLD (anything may follow, per the trailing `/?.*$`). -/
def w1Scan : Txt → Bool
  | [] => false
  | c :: rest => w1Class c && (w1Dot rest || w1Scan rest)

/-- Optional scheme `(?:https?:\/\/)?` continuations. -/
def schemeBranches (t : Txt) : List Txt :=
  let after := fun (r : Txt) =>
    match eatCI ("://".toList) r with
    | some r2 => [r2]
    | none => []
  [t] ++
    (match eatCI ("https".toList) t with
     | some r => after r
     | none => []) ++
    (match eatCI ("http".toList) t with
     | some r => after r
     | none => [])

/-- Pattern `^(?:https?:\/\/)?(?:www\.)?[a-zA-Z0-9\-\.]+\.(?:com|…|kr)/?.*$`
(the optional `www.` is subsumed by the body class). -/
def web1 (t : Txt) : Bool :=
  (schemeBranches t).any w1Scan

/-- Pattern `^.*\.(?:com|org|…|kr)\s*$`. -/
def web2 (t : Txt) : Bool :=
  let r := t.reverse.dropWhile pySpace
  tlds.any (fun tl =>
    startsCIT r tl.reverse && headIs (fun c => c = '.') (r.drop tl.length))

/-- Pattern `^(?:Email|Website|URL|Web|WWW|メール|ウェブサイト|网站|웹사이트)[:\s].*$`. -/
def web3 (t : Txt) : Bool :=
  ["email".toList, "website".toList, "url".toList, "web".toList, "www".toList,
   "メール".toList, "ウェブサイト".toList, "网站".toList, "웹사이트".toList].any
    (fun k => startsCIT t k && headIs (fun c => c = ':' || pySpace c) (t.drop k.length))

/-- Disjunction of `web_patterns`. -/
def webMatch (t : Txt) : Bool := web1 t || web2 t || web3 t

/-! ### Noise filter: date patterns (`build_multilingual_date_patterns`) -/

/-- The optional trailing `\.?$`. -/
def optDotEnd (t : Txt) : Bool := t.isEmpty || t = ['.']

/-- Pattern `^\d{1,2}S\d{1,2}S\d{2,4}\.?$` where `S` stands for the class
of a dash or a forward slash. -/
def dateU1 (t : Txt) : Bool :=
  let n1 := digitRunLen t
  decide (1 ≤ n1 ∧ n1 ≤ 2) &&
    (match t.drop n1 with
     | s1 :: r1 =>
       (s1 = '-' || s1 = '/') &&
         (let n2 := digitRunLen r1
          decide (1 ≤ n2 ∧ n2 ≤ 2) &&
            (match r1.drop n2 with
             | s2 :: r2 =>
               (s2 = '-' || s2 = '/') &&
                 (let n3 := digitRunLen r2
                  decide (2 ≤ n3 ∧ n3 ≤ 4) && optDotEnd (r2.drop n3))
             | [] => false))
     | [] => false)

/-- Pattern `^\d{4}S\d{1,2}S\d{1,2}\.?$` where `S` stands for the class of
a dash or a forward slash. -/
def dateU2 (t : Txt) : Bool :=
  let n1 := digitRunLen t
  decide (n1 = 4) &&
    (match t.drop n1 with
     | s1 :: r1 =>
       (s1 = '-' || s1 = '/') &&
         (let n2 := digitRunLen r1
          decide (1 ≤ n2 ∧ n2 ≤ 2) &&
            (match r1.drop n2 with
             | s2 :: r2 =>
               (s2 = '-' || s2 = '/') &&
                 (let n3 := digitRunLen r2
                  decide (1 ≤ n3 ∧ n3 ≤ 2) && optDotEnd (r2.drop n3))
             | [] => false))
     | [] => false)

/-- Pattern `^\d{1,2}\s+\d{1,2}\s+\d{4}\.?$`. -/
def dateU3 (t : Txt) : Bool :=
  let n1 := digitRunLen t
  decide (1 ≤ n1 ∧ n1 ≤ 2) &&
    (match eatWs1 (t.drop n1) with
     | none => false
     | some r1 =>
       let n2 := digitRunLen r1
       decide (1 ≤ n2 ∧ n2 ≤ 2) &&
         (match eatWs1 (r1.drop n2) with
          | none => false
          | some r2 =>
            let n3 := digitRunLen r2
            decide (n3 = 4) && optDotEnd (r2.drop n3)))

/-- Pattern `^\d{1,2}\s+(?:months)\s+\d{4}\.?$`. -/
def dateM1 (months : List Txt) (t : Txt) : Bool :=
  let n1 := digitRunLen t
  decide (1 ≤ n1 ∧ n1 ≤ 2) &&
    (match eatWs1 (t.drop n1) with
     | none => false
     | some r1 =>
       months.any (fun m =>
         startsCIT r1 m &&
           (match eatWs1 (r1.drop m.length) with
            | none => false
            | some r2 =>
              let n3 := digitRunLen r2
              decide (n3 = 4) && optDotEnd (r2.drop n3))))

/-- Both continuations of an optional `,?`. -/
def optDotBranchesComma (t : Txt) : List Txt :=
  match t with
  | ',' :: r => [t, r]
  | _ => [t]

/-- Pattern `^(?:months)\s+\d{1,2},?\s+\d{4}\.?$`. -/
def dateM2 (months : List Txt) (t : Txt) : Bool :=
  months.any (fun m =>
    startsCIT t m &&
      (match eatWs1 (t.drop m.length) with
       | none => false
       | some r1 =>
         let n2 := digitRunLen r1
         decide (1 ≤ n2 ∧ n2 ≤ 2) &&
           (let r2 := r1.drop n2
            (optDotBranchesComma r2).any (fun r3 =>
              match eatWs1 r3 with
              | none => false
              | some r4 =>
                let n3 := digitRunLen r4
                decide (n3 = 4) && optDotEnd (r4.drop n3)))))

/-- Pattern `^(?:months)\s+\d{4}\.?$`. -/
def dateM3 (months : List Txt) (t : Txt) : Bool :=
  months.any (fun m =>
    startsCIT t m &&
      (match eatWs1 (t.drop m.length) with
       | none => false
       | some r1 =>
         let n := digitRunLen r1
         decide (n = 4) && optDotEnd (r1.drop n)))

/-- Disjunction of the date patterns of one language plus the English
fallback, mirroring `build_multilingual_date_patterns`. -/
def dateMatch (lang : Lang) (t : Txt) : Bool :=
  dateU1 t || dateU2 t || dateU3 t ||
  dateM1 (monthNames lang) t || dateM2 (monthNames lang) t ||
  dateM3 (monthNames lang) t ||
  (decide (lang ≠ en) &&
    (dateM1 (monthNames en) t || dateM2 (monthNames en) t ||
     dateM3 (monthNames en) t))

/-- Final `all_patterns` disjunction of `should_skip_text`
(address + form + web + date patterns, searched on the raw text). -/
def restPatterns (lang : Lang) (t : Txt) : Bool :=
  addressMatch t || formMatch t || webMatch t || dateMatch lang t

/-- Embedding of `should_skip_text`. -/
def shouldSkipText (text : Txt) (spans : Option (List Span)) : Bool :=
  if text.isEmpty || (pyStrip text).isEmpty then true
  else
    let lang := detectLanguage text
    let langs := languagesToCheck lang
    let st := pyStrip text
    if tocRowMatch st && !tocException langs st then true
    else if warningMatch langs st then true
    else if decide (text.length > 60) && longInstruction langs text then true
    else if numberedHeadingStart st then
      if containsRun '.' 3 text then true
      else
        match spans with
        | some ss =>
          if !ss.isEmpty then
            if anyBoldLetterSpan ss then false else restPatterns lang text
          else false
        | none => false
    else restPatterns lang text

/-! ### Pattern heading classifier (`is_heading_by_pattern`) -/

/-- Heading levels. -/
inductive HLevel | H1 | H2 | H3
deriving DecidableEq

/-- Class `[IVX\d]` under IGNORECASE. -/
def ivxdCh (c : Char) : Bool :=
  let l := pyLower c
  l = 'i' || l = 'v' || l = 'x' || isDigitCh c

/-- Match `<keyword>\s+` then a head character satisfying `p`. -/
def kwWsHead (k : Txt) (p : Char → Bool) (t : Txt) : Bool :=
  match eatCI k t with
  | none => false
  | some r =>
    match eatWs1 r with
    | none => false
    | some r2 => headIs p r2

/-- Match `<keyword>\d+<ch>` (for `第\d+章` and friends). -/
def kwDigitsCh (k : Txt) (c : Char) (t : Txt) : Bool :=
  match eatCI k t with
  | none => false
  | some r =>
    match eatDigits1 r with
    | none => false
    | some r2 => headIs (fun d => d = c) r2

/-- Fixed H1 patterns added on every language iteration (`^chapter\s+\d+`,
`^第\d+章`, `^第\d+部`, `^글\d+장`, `^глава\s+\d+`, `^часть\s+[IVX\d]+`,
`^kapitel\s+\d+`, `^teil\s+[IVX\d]+`, `^capítulo\s+\d+`, `^parte\s+[IVX\d]+`,
`^chapitre\s+\d+`, `^partie\s+[IVX\d]+`, `^فصل\s+\d+`, `^جزء\s+\d+`,
`^제\d+장`, `^제\d+부`, all IGNORECASE). -/
def h1Fixed (t : Txt) : Bool :=
  kwWsHead ("chapter".toList) isDigitCh t ||
  kwDigitsCh ("第".toList) '章' t ||
  kwDigitsCh ("第".toList) '部' t ||
  kwDigitsCh ("글".toList) '장' t ||
  kwWsHead ("глава".toList) isDigitCh t ||
  kwWsHead ("часть".toList) ivxdCh t ||
  kwWsHead ("kapitel".toList) isDigitCh t ||
  kwWsHead ("teil".toList) ivxdCh t ||
  kwWsHead ("capítulo".toList) isDigitCh t ||
  kwWsHead ("parte".toList) ivxdCh t ||
  kwWsHead ("chapitre".toList) isDigitCh t ||
  kwWsHead ("partie".toList) ivxdCh t ||
  kwWsHead ("فصل".toList) isDigitCh t ||
  kwWsHead ("جزء".toList) isDigitCh t ||
  kwDigitsCh ("제".toList) '장' t ||
  kwDigitsCh ("제".toList) '부' t

/-- Class of the all-caps/CJK line pattern
`[A-Z一-鿿぀-ゟ゠-ヿ가-힯\s]` (IGNORECASE widens `A-Z` to all ASCII
letters). -/
def capsCjkWsCh (c : Char) : Bool :=
  isLatinCh c || isCjkCh c || isKanaCh c || isHangulCh c || pySpace c

/-- Pattern `^[A-Z一-鿿぀-ゟ゠-ヿ가-힯\s]{10,}$` (IGNORECASE). -/
def allCapsCjk10 (t : Txt) : Bool :=
  decide (t.length ≥ 10) && t.all capsCjkWsCh

/-- Pattern `^\d+\.\s+[A-Z一-鿿぀-ゟ゠-ヿ가-힯]` (IGNORECASE). -/
def numberedCapH1 (t : Txt) : Bool :=
  match eatDigits1 t with
  | none => false
  | some r =>
    match r with
    | '.' :: r2 =>
      match eatWs1 r2 with
      | none => false
      | some r3 =>
        headIs (fun c => isLatinCh c || isCjkCh c || isKanaCh c || isHangulCh c) r3
    | _ => false

/-- Pattern `^[A-Z一-鿿][A-Z一-鿿぀-ゟ゠-ヿ가-힯\s]+[A-Z一-鿿]$` (IGNORECASE). -/
def multiCapsH1 (t : Txt) : Bool :=
  decide (t.length ≥ 3) &&
  headIs (fun c => isLatinCh c || isCjkCh c) t &&
  headIs (fun c => isLatinCh c || isCjkCh c) t.reverse &&
  ((t.drop 1).dropLast.all capsCjkWsCh)

/-- H1 patterns of one language: `^(part-words)\s+[IVX\d]+`,
`^(chapter-words)\s+\d+`, then the fixed list and the three generic caps
patterns. -/
def h1ForLang (l : Lang) (t : Txt) : Bool :=
  let kws := headingKeywords l
  kws.part.any (fun k => kwWsHead k ivxdCh t) ||
  kws.chapter.any (fun k => kwWsHead k isDigitCh t) ||
  h1Fixed t || allCapsCjk10 t || numberedCapH1 t || multiCapsH1 t

/-- Appendix pattern without colon: `^(appendix-words)\s*[A-Z0-9]+`. -/
def appendixNoColon (k t : Txt) : Bool :=
  match eatCI k t with
  | none => false
  | some r => headIs (fun c => isLatinCh c || isDigitCh c) (eatWs0 r)

/-- Class `[A-ZА-Я0-9]` under IGNORECASE (ASCII letters, digits, Cyrillic
letters а-я/А-Я). -/
def ruClassCh (c : Char) : Bool :=
  isLatinCh c || isDigitCh c || inR c 0x410 0x44F

/-- Fixed H2 patterns added on every language iteration (`^付録[A-Z0-9]`,
`^附录[A-Z0-9]`, `^приложение\s+[A-ZА-Я0-9]`, `^anhang\s+[A-Z0-9]`,
`^apéndice\s+[A-Z0-9]`, `^annexe\s+[A-Z0-9]`, `^ملحق\s+[A-Z0-9]`,
`^부록\s*[A-Z0-9]`, all IGNORECASE). -/
def h2Fixed (t : Txt) : Bool :=
  (match eatCI ("付録".toList) t with
   | some r => headIs (fun c => isLatinCh c || isDigitCh c) r
   | none => false) ||
  (match eatCI ("附录".toList) t with
   | some r => headIs (fun c => isLatinCh c || isDigitCh c) r
   | none => false) ||
  kwWsHead ("приложение".toList) ruClassCh t ||
  kwWsHead ("anhang".toList) (fun c => isLatinCh c || isDigitCh c) t ||
  kwWsHead ("apéndice".toList) (fun c => isLatinCh c || isDigitCh c) t ||
  kwWsHead ("annexe".toList) (fun c => isLatinCh c || isDigitCh c) t ||
  kwWsHead ("ملحق".toList) (fun c => isLatinCh c || isDigitCh c) t ||
  (match eatCI ("부록".toList) t with
   | some r => headIs (fun c => isLatinCh c || isDigitCh c) (eatWs0 r)
   | none => false)

/-- Pattern `^\d+\.\d+\s+` (subsection numbering). -/
def subsectionNum (t : Txt) : Bool :=
  match eatDigits1 t with
  | none => false
  | some r =>
    match r with
    | '.' :: r2 =>
      match eatDigits1 r2 with
      | none => false
      | some r3 => headIs pySpace r3
    | _ => false

/-- Rest-of-word class `[a-z぀-ゟ゠-ヿ가-힯]` under IGNORECASE. -/
def tcRestCh (c : Char) : Bool :=
  isLatinCh c || isKanaCh c || isHangulCh c

/-- One Title-Case word `[A-Z一-鿿][a-z぀-ゟ゠-ヿ가-힯]+` (IGNORECASE). -/
def tcWord (t : Txt) : Option Txt :=
  match t with
  | c :: r =>
    if isLatinCh c || isCjkCh c then
      let run := r.takeWhile tcRestCh
      if run.length ≥ 1 then some (r.drop run.length) else none
    else none
  | [] => none

/-- Loop of `^Word(\s+Word)*:$`. -/
def tcColonLoop : Nat → Txt → Bool
  | 0, _ => false
  | n + 1, t =>
    match tcWord t with
    | none => false
    | some r =>
      r = [':'] ||
        (match eatWs1 r with
         | some r2 => tcColonLoop n r2
         | none => false)

/-- Loop of `^Word(\s+Word)*$`. -/
def tcPlainLoop : Nat → Txt → Bool
  | 0, _ => false
  | n + 1, t =>
    match tcWord t with
    | none => false
    | some r =>
      r.isEmpty ||
        (match eatWs1 r with
         | some r2 => tcPlainLoop n r2
         | none => false)

/-- Pattern `^\d+\s+[A-Z一-鿿]` (IGNORECASE). -/
def numSpaceCap (t : Txt) : Bool :=
  match eatDigits1 t with
  | none => false
  | some r =>
    match eatWs1 r with
    | none => false
    | some r2 => headIs (fun c => isLatinCh c || isCjkCh c) r2

/-- H2 patterns of one language: `^(appendix-words)\s+[A-Z0-9]+:`,
`^(appendix-words)\s*[A-Z0-9]+`, the fixed list, `^\d+\.\d+\s+`,
Title Case with colon, `^\d+\s+[A-Z一-鿿]`, Title Case without colon. -/
def h2ForLang (l : Lang) (t : Txt) : Bool :=
  let kws := headingKeywords l
  kws.appendix.any (fun k => appendixColon k t) ||
  kws.appendix.any (fun k => appendixNoColon k t) ||
  h2Fixed t || subsectionNum t ||
  tcColonLoop (t.length + 1) t || numSpaceCap t ||
  tcPlainLoop (t.length + 1) t

/-- Universal H3 patterns (`^\d+\.\d+\.\d+\s+`, `^[a-z]\)\s+`,
`^[bullet]\s+[A-Z一-鿿]`, `^[(（][a-zA-Z0-9]+[)）]\s+`, IGNORECASE). -/
def h3Match (t : Txt) : Bool :=
  (match eatDigits1 t with
   | some ('.' :: r2) =>
     (match eatDigits1 r2 with
      | some ('.' :: r4) =>
        (match eatDigits1 r4 with
         | some r5 => headIs pySpace r5
         | none => false)
      | _ => false)
   | _ => false) ||
  (match t with
   | c :: ')' :: r => isLatinCh c && headIs pySpace r
   | _ => false) ||
  (match t with
   | c :: r =>
     bulletCh c &&
       (match eatWs1 r with
        | some r2 => headIs (fun d => isLatinCh d || isCjkCh d) r2
        | none => false)
   | [] => false) ||
  (match t with
   | c :: r =>
     (c = '(' || c = '（') &&
       (let run := r.takeWhile (fun d => isLatinCh d || isDigitCh d)
        decide (run.length ≥ 1) &&
          (match r.drop run.length with
           | d :: r2 => (d = ')' || d = '）') && headIs pySpace r2
           | [] => false))
   | [] => false)

/-- Restrictive single-word fallback patterns (no IGNORECASE):
`^[A-Z]{4,}$`, `^[一-鿿]{2,}$`, `^[぀-ゟ゠-ヿ]{3,}$`, `^[가-힯]{2,}$`, each
additionally requiring `len(text) >= 3`. -/
def singleWordH2 (t : Txt) : Bool :=
  decide (t.length ≥ 3) &&
    ((decide (t.length ≥ 4) && t.all isUpperA) ||
     (decide (t.length ≥ 2) && t.all isCjkCh) ||
     (decide (t.length ≥ 3) && t.all isKanaCh) ||
     (decide (t.length ≥ 2) && t.all isHangulCh))

/-- Embedding of `is_heading_by_pattern`. -/
def isHeadingByPattern (text0 : Txt) : Option HLevel :=
  let t := pyStrip text0
  if shouldSkipText t none then none
  else
    let langs := languagesToCheck (detectLanguage t)
    if langs.any (fun l => h1ForLang l t) then some .H1
    else if langs.any (fun l => h2ForLang l t) then some .H2
    else if h3Match t then some .H3
    else if singleWordH2 t then some .H2
    else none

/-! ### List-sequence detector (`is_likely_list_item`) -/

/-- The neighbour text of a line: each span text stripped, joined with
single spaces, then stripped (`check_text` of the source). -/
def neighborText (l : Line) : Txt :=
  pyStrip (l.spans.foldl (fun acc s => acc ++ pyStrip s.text ++ [' ']) [])

/-- Numeric value of a digit run. -/
def digitsToNat (ds : Txt) : Nat :=
  ds.foldl (fun a c => a * 10 + (c.toNat - 48)) 0

/-- Parse `^(\d+)\.(\d+)\s+`, returning the two numbers. -/
def parseMajorMinor (t : Txt) : Option (Nat × Nat) :=
  let ds1 := t.takeWhile isDigitCh
  if ds1.isEmpty then none
  else
    match t.drop ds1.length with
    | '.' :: r2 =>
      let ds2 := r2.takeWhile isDigitCh
      if ds2.isEmpty then none
      else if headIs pySpace (r2.drop ds2.length) then
        some (digitsToNat ds1, digitsToNat ds2)
      else none
    | _ => none

/-- Whether a neighbour line matches `^(\d+)\.(\d+)\s+` with the given
major number (the non-empty check of the source is subsumed: an empty
neighbour text cannot parse). -/
def neighborMatches (maj : Nat) (l : Line) : Bool :=
  let ct := neighborText l
  !ct.isEmpty &&
    (match parseMajorMinor ct with
     | some mm => decide (mm.1 = maj)
     | none => false)

/-- The two neighbour-counting loops of `is_likely_list_item`: indices
`range(max(0, i-10), i)` (with the in-bounds guard) and
`range(i+1, min(len(lines), i+11))`. -/
def similarCount (maj : Nat) (lines : List Line) (i : Nat) : Nat :=
  ((List.range' (i - 10) (i - (i - 10))).filter (fun j =>
      decide (j < lines.length) && neighborMatches maj (lines.getD j dfltLine))).length +
  ((List.range' (i + 1) (min lines.length (i + 11) - (i + 1))).filter (fun j =>
      neighborMatches maj (lines.getD j dfltLine))).length

/-- Embedding of `is_likely_list_item` (the pure Boolean result; the
diagnostic record appended to `self.detected_lists` is threaded separately
in the assembler state). -/
def isLikelyListItem (lineText : Txt) (lines : List Line) (i : Nat) : Bool :=
  match parseMajorMinor (pyStrip lineText) with
  | none => false
  | some mm => decide (similarCount mm.1 lines i ≥ 2)

/-! ### Formatting classifier and document average font size -/

/-- The `size_ratio` of `is_heading_by_formatting`:
`font_size / avg_font_size if avg_font_size > 0 else 1`. -/
def sizeRatio (size avg : ℚ) : ℚ := if avg > 0 then size / avg else 1

/-- Embedding of `is_heading_by_formatting`. -/
def isHeadingByFormatting (s : Span) (avg : ℚ) : Option HLevel :=
  let ratio := sizeRatio s.size avg
  let bold := isBoldFlags s.flags
  if ratio ≥ 1.4 ∨ (bold ∧ ratio ≥ 1.2) then some .H1
  else if ratio ≥ 1.20 ∨ (bold ∧ ratio ≥ 1.0) then some .H2
  else if bold ∧ ratio ≥ 0.8 then some .H3
  else none

/-- A block as reported by the decoder: image blocks carry no `"lines"`
key, modelled by `none`. -/
structure Block where
  lines : Option (List Line)
deriving DecidableEq

/-- A page as reported by the collaborators: geometry, text blocks, the
plain text of `page.get_text()` and the drawing rectangles of
`page.get_drawings()`. -/
structure Page where
  width : ℚ
  height : ℚ
  blocks : List Block
  fullText : Txt
  drawings : List Rect
deriving DecidableEq

/-- All spans of a page in reading order (blocks with lines only). -/
def pageSpans (p : Page) : List Span :=
  p.blocks.flatMap (fun b =>
    match b.lines with
    | some ls => ls.flatMap (fun l => l.spans)
    | none => [])

/-- The sampled font sizes of `calculate_average_font_size`: spans with
non-empty stripped text on the first five pages. -/
def sampledSizes (pages : List Page) : List ℚ :=
  (pages.take 5).flatMap (fun p =>
    (pageSpans p).filterMap (fun s =>
      if (pyStrip s.text).isEmpty then none else some s.size))

/-- Embedding of `calculate_average_font_size`. -/
def calculateAverageFontSize (pages : List Page) : ℚ :=
  let fs := sampledSizes pages
  if fs.isEmpty then 12 else fs.sum / fs.length

/-! ### Geometry checks -/

/-- Embedding of `is_text_in_box`: the line centre lies inside a drawn
rectangle whose width is strictly between 200 and 600 and height strictly
between 50 and 700. -/
def isTextInBox (drawings : List Rect) (bbox : Rect) : Bool :=
  let cx := (bbox.x0 + bbox.x1) / 2
  let cy := (bbox.y0 + bbox.y1) / 2
  drawings.any (fun r =>
    decide (r.x0 ≤ cx ∧ cx ≤ r.x1 ∧ r.y0 ≤ cy ∧ cy ≤ r.y1) &&
    decide (200 < r.x1 - r.x0 ∧ r.x1 - r.x0 < 600 ∧
            50 < r.y1 - r.y0 ∧ r.y1 - r.y0 < 700))

/-- Embedding of `is_text_direction_compatible`: Arabic text must sit right
of 30% of the page width, other text left of 70%. -/
def isTextDirectionCompatible (text : Txt) (x pageWidth : ℚ) : Bool :=
  if detectLanguage text = ar then decide (x > pageWidth * (3 / 10))
  else decide (x < pageWidth * (7 / 10))

/-- Python float modulo for a positive modulus (result in `[0, m)`). -/
def qmod (x m : ℚ) : ℚ := x - m * ((⌊x / m⌋ : ℤ) : ℚ)

/-- The span-acceptance rotation test of the assembler:
`any(abs((angle - base) % 360) <= 5.0 for base in [0, 90, 180, 270])`. -/
def rotationOk (angle : ℚ) : Bool :=
  [(0 : ℚ), 90, 180, 270].any (fun b => decide (|qmod (angle - b) 360| ≤ 5))

/-! ### pdfplumber collaborator model and table detection -/

/-- One table found by pdfplumber: bounding box, whether `table.cells` is
non-empty, and the extracted row count (`none` models `extract()`
raising). -/
structure PlumberTable where
  bbox : Rect
  cells : Bool
  extract : Option Nat
deriving DecidableEq

/-- The whole input for one document: the fitz page stream and the
pdfplumber per-page table lists (`none` models `pdfplumber.open`
raising). -/
structure PdfInput where
  pages : List Page
  plumber : Option (List (List PlumberTable))
deriving DecidableEq

/-- Embedding of `detect_tables_with_pdfplumber`: per page (1-based),
tables whose extraction succeeded with non-empty cells and at least three
rows. -/
def detectTables (plumber : Option (List (List PlumberTable))) : List (Nat × Rect) :=
  match plumber with
  | none => []
  | some pgs =>
    pgs.enum.flatMap (fun pt =>
      pt.2.filterMap (fun tb =>
        match tb.extract with
        | none => none
        | some rows =>
          if tb.cells && decide (rows ≥ 3) then some (pt.1 + 1, tb.bbox) else none))

/-- First-page table boxes used by title extraction: a table whose row
extraction raised is conservatively included. -/
def titlePageTables (plumber : Option (List (List PlumberTable))) : List Rect :=
  match plumber with
  | none => []
  | some [] => []
  | some (p0 :: _) =>
    p0.filterMap (fun tb =>
      match tb.extract with
      | none => some tb.bbox
      | some rows =>
        if tb.cells && decide (rows ≠ 0) && decide (rows ≥ 3) then some tb.bbox
        else none)

/-! ### Title reconstruction (`extract_title_from_text`) -/

/-- A title candidate line of page 1. -/
structure TitleCand where
  text : Txt
  size : ℚ
  y : ℚ
  flags : Nat
deriving DecidableEq

/-- Fallback candidate for defaulted list access. -/
def dfltCand : TitleCand := { text := [], size := 0, y := 0, flags := 0 }

/-- The per-span filter of title candidate collection (`text` is the
stripped span text). -/
def titleSpanOk (text : Txt) : Bool :=
  !text.isEmpty && decide (text.length > 1) &&
  !startsT text ("Page ".toList) && !startsT text ("Chapter ".toList) &&
  !startsT text ("Section ".toList) && !startsT text ("http".toList) &&
  !endsT text (".com".toList) && !endsT text (".org".toList) &&
  !endsT text (".net".toList) &&
  !(text.all (fun c => isDigitCh c || c = '-')) &&
  !(text.all (fun c => isDigitCh c || pySpace c)) &&
  !(match text with
    | c :: r => isLowerA c && r.all pySpace
    | [] => false)

/-- The repetitiveness filter: at most three words, or at least 60%
distinct words (`len(set(words)) >= len(words) * 0.6`, modelled with the
exact rational 3/5). -/
def titleRepOk (text : Txt) : Bool :=
  let words := splitWs text
  decide (words.length ≤ 3) ||
    decide ((dedupTxts words).length * 5 ≥ words.length * 3)

/-- Candidate collection over the first page's blocks and lines. -/
def collectTitleCands (page : Page) (pageTables : List Rect) : List TitleCand :=
  page.blocks.flatMap (fun b =>
    match b.lines with
    | none => []
    | some ls =>
      ls.filterMap (fun line =>
        let keep := fun (s : Span) =>
          let tx := pyStrip s.text
          titleSpanOk tx && titleRepOk tx
        let parts := line.spans.filterMap (fun s =>
          if keep s then some (pyStrip s.text) else none)
        if parts.isEmpty then none
        else
          let accepted := line.spans.filter keep
          let lineSize := accepted.foldl (fun m s => max m s.size) 0
          let lineFlags := accepted.foldl (fun f s => f ||| s.flags) 0
          let lineY := line.bbox.y0
          let isRight := decide (line.bbox.x0 > page.width * (6 / 10))
          let cx := (line.bbox.x0 + line.bbox.x1) / 2
          let cy := (line.bbox.y0 + line.bbox.y1) / 2
          let inTable := pageTables.any (fun tb =>
            decide (tb.x0 ≤ cx ∧ cx ≤ tb.x1 ∧ tb.y0 ≤ cy ∧ cy ≤ tb.y1))
          let inBox := isTextInBox page.drawings line.bbox
          if !isRight && !inTable && !inBox &&
              decide (lineY < page.height * (6 / 10)) then
            some { text := joinSpace parts, size := lineSize, y := lineY,
                   flags := lineFlags }
          else none))

/-- Python `round` (half to even) on a rational. -/
def pyRound (q : ℚ) : ℤ :=
  let f := ⌊q⌋
  let r := q - (f : ℚ)
  if r < 1 / 2 then f
  else if r > 1 / 2 then f + 1
  else if f % 2 = 0 then f else f + 1

/-- Insert a candidate into the insertion-ordered size-group association
list. -/
def addToGroups (gs : List (ℤ × List TitleCand)) (k : ℤ) (c : TitleCand) :
    List (ℤ × List TitleCand) :=
  match gs with
  | [] => [(k, [c])]
  | g :: rest =>
    if g.1 = k then (g.1, g.2 ++ [c]) :: rest else g :: addToGroups rest k c

/-- The `size_groups` dict: key `round(size / 2) * 2`, insertion order. -/
def sizeGroups (cs : List TitleCand) : List (ℤ × List TitleCand) :=
  cs.foldl (fun gs c => addToGroups gs (pyRound (c.size / 2) * 2) c) []

/-- Descending insertion for `sorted(keys, reverse=True)`. -/
def insertDesc (k : ℤ) : List ℤ → List ℤ
  | [] => [k]
  | x :: xs => if k ≥ x then k :: x :: xs else x :: insertDesc k xs

/-- Sort keys descending. -/
def sortDesc (l : List ℤ) : List ℤ := l.foldr insertDesc []

/-- Stable ascending insertion by the y coordinate (Python `list.sort` /
`sorted` with `key=lambda x: x["y"]`). -/
def insY (c : TitleCand) : List TitleCand → List TitleCand
  | [] => [c]
  | d :: ds => if c.y ≤ d.y then c :: d :: ds else d :: insY c ds

/-- Stable sort of candidates by y. -/
def sortByY (cs : List TitleCand) : List TitleCand := cs.foldr insY []

/-- Try to append a candidate to the first cluster whose last member is
vertically within `limit`. -/
def addToCluster (groups : List (List TitleCand)) (c : TitleCand) (limit : ℚ) :
    Option (List (List TitleCand)) :=
  match groups with
  | [] => none
  | g :: gs =>
    if |c.y - (g.getLastD dfltCand).y| ≤ limit then some ((g ++ [c]) :: gs)
    else
      match addToCluster gs c limit with
      | some gs2 => some (g :: gs2)
      | none => none

/-- Multi-part clustering loop: break once past half the page height, else
join the first matching cluster or open a new one. -/
def clusterLoop (height limit : ℚ) : List TitleCand → List (List TitleCand) →
    List (List TitleCand)
  | [], acc => acc
  | c :: cs, acc =>
    if c.y > height * (1 / 2) then acc
    else
      match addToCluster acc c limit with
      | some acc2 => clusterLoop height limit cs acc2
      | none => clusterLoop height limit cs (acc ++ [[c]])

/-- Sequential clustering of the single-group fallback: append to the last
cluster when `c.y - last_y <= limit`, else start a new cluster. -/
def seqCluster (limit : ℚ) : List TitleCand → List (List TitleCand) →
    List (List TitleCand)
  | [], acc => acc
  | c :: cs, acc =>
    if acc.isEmpty then seqCluster limit cs [[c]]
    else
      let lg := acc.getLastD []
      if c.y - (lg.getLastD dfltCand).y ≤ limit then
        seqCluster limit cs (acc.dropLast ++ [lg ++ [c]])
      else seqCluster limit cs (acc ++ [[c]])

/-- Unique non-short text parts of the topmost cluster (`seen_texts`
loop). -/
def uniquePartsLoop : List TitleCand → List Txt → List Txt
  | [], _ => []
  | c :: cs, seen =>
    let tx := pyStrip c.text
    if !tx.isEmpty && !seen.contains tx && decide (tx.length > 2) then
      tx :: uniquePartsLoop cs (tx :: seen)
    else uniquePartsLoop cs seen

/-- The texts of one cluster joined (`" ".join(… if c["text"].strip())`). -/
def clusterText (g : List TitleCand) : Txt :=
  joinSpace (g.filterMap (fun c =>
    let s := pyStrip c.text
    if s.isEmpty then none else some s))

/-- Embedding of `extract_title_from_text`. -/
def extractTitleFromText (inp : PdfInput) : Txt :=
  match inp.pages with
  | [] => "Untitled Document".toList
  | page :: _ =>
    let pageTables := titlePageTables inp.plumber
    let candidates0 := collectTitleCands page pageTables
    if candidates0.isEmpty then []
    else
      let candidates := candidates0.filter (fun c => decide (c.text.length < 200))
      let top := candidates.filter (fun c => decide (c.y ≤ page.height * (6 / 10)))
      if top.isEmpty then []
      else
        let groups := sizeGroups top
        let multi : Option Txt :=
          if groups.length ≥ 2 then
            match sortDesc (groups.map (fun g => g.1)) with
            | largest :: second :: _ =>
              if decide ((second : ℚ) ≥ (largest : ℚ) * (6 / 10)) then
                let lookup := fun (k : ℤ) =>
                  match groups.find? (fun g => g.1 = k) with
                  | some g => g.2
                  | none => []
                let all := sortByY (lookup largest ++ lookup second)
                let titleLines := clusterLoop page.height ((largest : ℚ) * 3) all []
                let titleParts := titleLines.filterMap (fun g =>
                  let lt := clusterText g
                  if lt.isEmpty then none else some lt)
                if titleParts.isEmpty then none
                else some (smartDeduplicateTitle (joinSpace titleParts))
              else none
            | _ => none
          else none
        match multi with
        | some t => t
        | none =>
          let largest := groups.foldl (fun m g => max m g.1)
            ((groups.headD (0, [])).1)
          let lg :=
            match groups.find? (fun g => g.1 = largest) with
            | some g => g.2
            | none => []
          let sorted := sortByY lg
          let combined := seqCluster ((largest : ℚ) * 3) sorted []
          let best := combined.headD []
          let uniq := uniquePartsLoop best []
          if uniq.isEmpty then []
          else smartDeduplicateTitle (joinSpace uniq)

/-! ### Outline assembler (`extract_outline`) -/

/-- A heading record of the output outline. -/
structure HeadingRec where
  level : HLevel
  text : Txt
  page : Nat
deriving DecidableEq

/-- One entry of the per-instance `self.detected_lists` diagnostics (the
formatted per-pattern strings of the source are presentation-only and
elided). -/
structure ListEntry where
  text : Txt
  patternCount : Nat
deriving DecidableEq

/-- Assembler state: the accumulated outline, the `processed_texts` set
(as a list, membership only) and the instance-level `detected_lists`. -/
structure AsmSt where
  outline : List HeadingRec
  processed : List Txt
  dl : List ListEntry
deriving DecidableEq

/-- Per-page context handed to the line loop. -/
structure LineCtx where
  pageNum : Nat
  totalPages : Nat
  pageWidth : ℚ
  pageHeight : ℚ
  pageFullText : Txt
  pageDrawings : List Rect
  pageTables : List Rect
  title : Txt
  avg : ℚ

/-- Initial span collection of one line: spans with non-empty stripped text
and acceptable rotation contribute `text + " "` and are kept. -/
def initialSpans (line : Line) : Txt × List Span :=
  line.spans.foldl (fun acc s =>
    let tx := pyStrip s.text
    if !tx.isEmpty && rotationOk s.rotation then
      (acc.1 ++ tx ++ [' '], acc.2 ++ [s])
    else acc) ([], [])

/-- The line-merging `while` loop: keep absorbing the next line while its
text is non-empty, average font sizes differ by at most 1.0, and the
vertical gap to the *original* line's bottom is at most 1.5 times the
current average size.  Returns the accumulated text, spans and the final
index. -/
def mergeLoop : Nat → List Line → Rect → Nat → Txt → List Span →
    Txt × List Span × Nat
  | 0, _, _, i, t, sp => (t, sp, i)
  | n + 1, lines, baseBox, i, t, sp =>
    if i + 1 < lines.length then
      let nl := lines.getD (i + 1) dfltLine
      let nextText := joinSpace
        ((nl.spans.map (fun s => pyStrip s.text)).filter (fun x => !x.isEmpty))
      if nextText.isEmpty then (t, sp, i)
      else
        let fs := if sp.isEmpty then [(0 : ℚ)] else sp.map (fun s => s.size)
        let nfs := if nl.spans.isEmpty then [(0 : ℚ)]
                   else nl.spans.map (fun s => s.size)
        let avgS := fs.sum / (fs.length : ℚ)
        let nAvgS := nfs.sum / (nfs.length : ℚ)
        if |avgS - nAvgS| ≤ 1 ∧ |nl.bbox.y0 - baseBox.y1| ≤ avgS * (3 / 2) then
          mergeLoop n lines baseBox (i + 1) (t ++ nextText ++ [' ']) (sp ++ nl.spans)
        else (t, sp, i)
    else (t, sp, i)

/-- First formatting-based level over the line's spans. -/
def firstFmtLevel (avg : ℚ) : List Span → Option HLevel
  | [] => none
  | s :: ss =>
    match isHeadingByFormatting s avg with
    | some l => some l
    | none => firstFmtLevel avg ss

/-- Result of processing one (merged) line. -/
structure StepRes where
  nextI : Nat
  acc? : Option (HeadingRec × Txt)
  entry? : Option ListEntry

/-- The `is_title_related` computation (page 1 with a non-empty title
only). -/
def titleRelated (ctx : LineCtx) (lineText : Txt) : Bool :=
  if ctx.pageNum = 0 && !ctx.title.isEmpty then
    let isExact := lowerT (pyStrip lineText) = lowerT (pyStrip ctx.title)
    let titleWords := dedupTxts (splitWs (lowerT ctx.title))
    let lineWords := dedupTxts (splitWs (lowerT lineText))
    if !titleWords.isEmpty && !lineWords.isEmpty then
      let overlap := (lineWords.filter (fun w => titleWords.contains w)).length
      decide isExact ||
        (decide (overlap ≥ lineWords.length) && decide (lineWords.length ≤ 3))
    else false
  else false

/-- The conjunction of the per-line exclusion tests of the line loop of
`extract_outline`: length bounds, dedup against processed texts, non-empty
spans, `should_skip_text`, exact and fuzzy title protection, text
direction, drawing boxes and detected tables.  The `is_right_aligned`
flag of the source is computed there but never used in the acceptance
condition, so it does not appear here. -/
def lineGuard (ctx : LineCtx) (line : Line) (lineText : Txt)
    (lineSpans : List Span) (processed : List Txt) : Bool :=
  let dir := if !lineSpans.isEmpty then
               isTextDirectionCompatible lineText line.bbox.x0 ctx.pageWidth
             else true
  let inBox := if !lineSpans.isEmpty then
                 isTextInBox ctx.pageDrawings line.bbox
               else false
  let cx := (line.bbox.x0 + line.bbox.x1) / 2
  let cy := (line.bbox.y0 + line.bbox.y1) / 2
  let inTable := if !lineSpans.isEmpty then
                   ctx.pageTables.any (fun tb =>
                     decide (tb.x0 ≤ cx ∧ cx ≤ tb.x1 ∧ tb.y0 ≤ cy ∧ cy ≤ tb.y1))
                 else false
  decide (lineText.length > 3) && decide (lineText.length < 200) &&
    !processed.contains lineText && !lineSpans.isEmpty &&
    !shouldSkipText lineText (some lineSpans) &&
    decide (lineText ≠ ctx.title) && !titleRelated ctx lineText &&
    dir && !inBox && !inTable

/-- The table-of-contents page rejection (the `is_toc_page` block of
`extract_outline`). -/
def tocRejectB (ctx : LineCtx) (lineText : Txt) (lineSpans : List Span) :
    Bool :=
  let pageText := lowerT ctx.pageFullText
  let langs2 := languagesToCheck (detectLanguage pageText)
  let isTocPage := decide (ctx.pageNum < ctx.totalPages) &&
    langs2.any (fun l => ((headingKeywords l).tableOfContents).any
      (fun kw => containsT pageText (lowerT kw)))
  if isTocPage then
    let tocKs := langs2.flatMap (fun l => (headingKeywords l).tableOfContents)
    let isTocHeading := tocKs.any (fun kw =>
      lowerT (pyStrip lineText) = lowerT kw)
    let boldNumbered :=
      (match eatDigits1 (pyStrip lineText) with
       | some ('.' :: _) => true
       | _ => false) &&
      lineSpans.any (fun s => isBoldFlags s.flags)
    !isTocHeading && !boldNumbered
  else false

/-- The heading-level resolution: formatting first (skipped when the line
mixes bold and non-bold spans), then pattern matching. -/
def levelOf (avg : ℚ) (lineSpans : List Span) (lineText : Txt) :
    Option HLevel :=
  let anyB := lineSpans.any (fun s => isBoldFlags s.flags)
  let allB := lineSpans.all (fun s => isBoldFlags s.flags)
  let fmtLevel := if anyB && !allB then none
                  else firstFmtLevel avg lineSpans
  match fmtLevel with
  | some l => some l
  | none => isHeadingByPattern lineText

/-- The diagnostic counter stored with a suppressed list item. -/
def listCnt (lineText : Txt) (lines : List Line) (iNext : Nat) : Nat :=
  match parseMajorMinor (pyStrip lineText) with
  | some mm => similarCount mm.1 lines iNext
  | none => 0

/-- Maximum span size on the line (0 for an empty span list). -/
def maxSpanSize (lineSpans : List Span) : ℚ :=
  match lineSpans with
  | [] => 0
  | s :: ss => ss.foldl (fun mx s2 => max mx s2.size) s.size

/-- Body of the line loop: apply the exclusion guard, the ToC-page
restriction, both classifiers, the list check and the page-1 size gate;
produce the accepted record (with its raw line text for
`processed_texts`) or the detected-list entry. -/
def stepLineCore (ctx : LineCtx) (lines : List Line) (line : Line)
    (lineText : Txt) (lineSpans : List Span) (iNext : Nat)
    (processed : List Txt) : StepRes :=
  if !lineGuard ctx line lineText lineSpans processed then
    { nextI := iNext, acc? := none, entry? := none }
  else
    if tocRejectB ctx lineText lineSpans then
      { nextI := iNext, acc? := none, entry? := none }
    else
      match levelOf ctx.avg lineSpans lineText with
      | none => { nextI := iNext, acc? := none, entry? := none }
      | some lvl =>
        if isLikelyListItem lineText lines iNext then
          { nextI := iNext, acc? := none,
            entry? := some { text := lineText,
                             patternCount := listCnt lineText lines iNext } }
        else
          if ctx.pageNum = 0 && !lineSpans.any (fun s => isBoldFlags s.flags)
              && decide (maxSpanSize lineSpans ≥ 16) then
            { nextI := iNext, acc? := none, entry? := none }
          else
            { nextI := iNext,
              acc? := some
                ({ level := lvl, text := cleanExtractedText lineText true,
                   page := ctx.pageNum + 1 }, lineText),
              entry? := none }

/-- Build the merged line of index `i`, then decide it with
`stepLineCore`. -/
def stepLine (ctx : LineCtx) (lines : List Line) (i : Nat)
    (processed : List Txt) : StepRes :=
  let line := lines.getD i dfltLine
  let init := initialSpans line
  let m := mergeLoop (lines.length + 1) lines line.bbox i init.1 init.2
  let lineText0 := pyStrip m.1
  let lineText := if lineText0.isEmpty then lineText0
                  else cleanExtractedText lineText0 false
  stepLineCore ctx lines line lineText m.2.1 (m.2.2 + 1) processed

/-- Apply one step result to the assembler state. -/
def applyStep (st : AsmSt) (r : StepRes) : AsmSt :=
  { outline := st.outline ++ (match r.acc? with | some p => [p.1] | none => [])
    processed := st.processed ++ (match r.acc? with | some p => [p.2] | none => [])
    dl := st.dl ++ (match r.entry? with | some e => [e] | none => []) }

/-- The `while i < len(lines)` loop; the fuel `lines.length + 1` is enough
because every step advances the index by at least one. -/
def processLines (ctx : LineCtx) (lines : List Line) :
    Nat → Nat → AsmSt → AsmSt
  | 0, _, st => st
  | fuel + 1, i, st =>
    if i < lines.length then
      let r := stepLine ctx lines i st.processed
      processLines ctx lines fuel r.nextI (applyStep st r)
    else st

/-- One block: image blocks (no line list) are skipped. -/
def processBlock (ctx : LineCtx) (st : AsmSt) (b : Block) : AsmSt :=
  match b.lines with
  | none => st
  | some lines => processLines ctx lines (lines.length + 1) 0 st

/-- One page: select its table boxes (1-based page keys) and walk the
blocks. -/
def processPage (title : Txt) (avg : ℚ) (tables : List (Nat × Rect))
    (totalPages : Nat) (pageNum : Nat) (page : Page) (st : AsmSt) : AsmSt :=
  let pageTables := (tables.filter (fun t => t.1 = pageNum + 1)).map (fun t => t.2)
  let ctx : LineCtx :=
    { pageNum := pageNum, totalPages := totalPages, pageWidth := page.width,
      pageHeight := page.height, pageFullText := page.fullText,
      pageDrawings := page.drawings, pageTables := pageTables,
      title := title, avg := avg }
  page.blocks.foldl (processBlock ctx) st

/-- The page walk with the 0-based page counter. -/
def processPages (title : Txt) (avg : ℚ) (tables : List (Nat × Rect))
    (totalPages : Nat) : Nat → List Page → AsmSt → AsmSt
  | _, [], st => st
  | n, p :: rest, st =>
    processPages title avg tables totalPages (n + 1) rest
      (processPage title avg tables totalPages n p st)

/-! ### Final ordering and deduplication -/

/-- Python string `<=` on codepoints (lexicographic). -/
def txtLe : Txt → Txt → Bool
  | [], _ => true
  | _ :: _, [] => false
  | a :: as, b :: bs =>
    if a.toNat < b.toNat then true
    else if b.toNat < a.toNat then false
    else txtLe as bs

/-- The sort key order `(page, text)` of
`sorted(outline, key=lambda x: (x["page"], x["text"]))`. -/
def keyLe (x y : HeadingRec) : Bool :=
  decide (x.page < y.page) || (decide (x.page = y.page) && txtLe x.text y.text)

/-- Stable insertion by `keyLe` (Python's `sorted` is stable). -/
def insRec (x : HeadingRec) : List HeadingRec → List HeadingRec
  | [] => [x]
  | y :: ys => if keyLe x y then x :: y :: ys else y :: insRec x ys

/-- Stable sort by `(page, text)`. -/
def pySortRecs (l : List HeadingRec) : List HeadingRec := l.foldr insRec []

/-- The `seen`-set deduplication by `(level, text)`, keeping first
occurrences. -/
def dedupRecs : List HeadingRec → List (HLevel × Txt) → List HeadingRec
  | [], _ => []
  | x :: xs, seen =>
    if seen.contains (x.level, x.text) then dedupRecs xs seen
    else x :: dedupRecs xs ((x.level, x.text) :: seen)

/-- Sort by `(page, text)` then drop `(level, text)` duplicates — the final
post-processing of `extract_outline`. -/
def finalizeOutline (l : List HeadingRec) : List HeadingRec :=
  dedupRecs (pySortRecs l) []

/-- The externally observable result of one document. -/
structure OutlineResult where
  title : Txt
  outline : List HeadingRec
deriving DecidableEq

/-- Embedding of the success path of `extract_outline`, threading the
instance-level `detected_lists` state. -/
def extractOutlineOk (inp : PdfInput) (dl0 : List ListEntry) :
    OutlineResult × List ListEntry :=
  let title := extractTitleFromText inp
  let avg := calculateAverageFontSize inp.pages
  let tables := detectTables inp.plumber
  let st := processPages title avg tables inp.pages.length 0 inp.pages
    { outline := [], processed := [], dl := dl0 }
  let titleText := if !title.isEmpty && title ≠ ("Untitled Document".toList) then
                     cleanExtractedText title true
                   else []
  ({ title := titleText, outline := finalizeOutline st.outline }, st.dl)

/-- Embedding of `extract_outline` including its enclosing
`try`/`except`: a document whose decoding raises yields the empty result
and leaves the diagnostics untouched. -/
def extractOutline (file : Except String PdfInput) (dl0 : List ListEntry) :
    OutlineResult × List ListEntry :=
  match file with
  | .error _ => ({ title := [], outline := [] }, dl0)
  | .ok inp => extractOutlineOk inp dl0

/-- Embedding of the batch loop of `process_directory`: every file is
processed with `extract_outline` on the same extractor instance (whose
diagnostics state threads through); the JSON writing is outside the model.
Returns the written results in order plus the final state. -/
def processDirectory (files : List (Except String PdfInput))
    (dl0 : List ListEntry) : List OutlineResult × List ListEntry :=
  files.foldl (fun acc f =>
    let r := extractOutline f acc.2
    (acc.1 ++ [r.1], r.2)) ([], dl0)

/-! ### Concrete documents used as evaluation inputs -/

/-- Page-1 title line of the two-page demo document. -/
def annualLine1 : Line :=
  { bbox := ⟨50, 40, 200, 60⟩,
    spans := [{ text := "Annual Report".toList, size := 20, flags := 0,
                rotation := 0 }] }

/-- Page-2 line carrying a case-variant of the title, bold at the average
size. -/
def annualLine2 : Line :=
  { bbox := ⟨50, 100, 200, 120⟩,
    spans := [{ text := "ANNUAL REPORT".toList, size := 20, flags := 16,
                rotation := 0 }] }

/-- First demo page. -/
def annualPage1 : Page :=
  { width := 600, height := 800, blocks := [{ lines := some [annualLine1] }],
    fullText := "Annual Report".toList, drawings := [] }

/-- Second demo page. -/
def annualPage2 : Page :=
  { width := 600, height := 800, blocks := [{ lines := some [annualLine2] }],
    fullText := "ANNUAL REPORT".toList, drawings := [] }

/-- A two-page document whose page-2 heading is a case-variant of the
page-1 title. -/
def annualDoc : PdfInput :=
  { pages := [annualPage1, annualPage2], plumber := some [[], []] }

/-- A single-span line for the list-detection examples. -/
def demoLine (s : String) : Line :=
  { bbox := ⟨0, 0, 100, 10⟩,
    spans := [{ text := s.toList, size := 10, flags := 0, rotation := 0 }] }

/-- Three adjacent numbered lines in one block. -/
def demoLines : List Line :=
  [demoLine "9.1 Alpha", demoLine "9.2 Beta", demoLine "9.3 Gamma"]

/-! ### Claim-side auxiliary definitions -/

/-- Agreement of two assembler states on everything the output depends on
(the diagnostics list may differ). -/
def stLike (s1 s2 : AsmSt) : Prop :=
  s1.outline = s2.outline ∧ s1.processed = s2.processed

/-- The neighbour count as the specification words it: among the up to ten
lines before and up to ten lines after the current index within the block,
the non-empty neighbours matching `<major>.<minor> ` with the same major
number. -/
def claimNeighborCount (maj : Nat) (lines : List Line) (i : Nat) : Nat :=
  (((lines.take i).drop (i - 10)) ++ ((lines.drop (i + 1)).take 10)).countP
    (fun l => neighborMatches maj l)

/-- The acceptance-guard facts recorded for every emitted heading record:
it arises from a cleaned line text of length strictly between 4 and 199
that differs from the internal title string, carries that text cleaned in
heading style, and sits on the 1-based page it was found on. -/
def recOk (title : Txt) (r : HeadingRec) : Prop :=
  ∃ lt : Txt, 3 < lt.length ∧ lt.length < 200 ∧
    r.text = cleanExtractedText lt true ∧ lt ≠ title

/-! ## Theorems -/

/-- Claim C6: for every span and document average font size,
`is_heading_by_formatting` returns H1 iff ratio ≥ 1.4 or (bold and
ratio ≥ 1.2); otherwise H2 iff ratio ≥ 1.20 or (bold and ratio ≥ 1.0);
otherwise H3 iff bold and ratio ≥ 0.8; otherwise none — where the ratio is
the span size divided by the average, taken to be 1 when the average is
non-positive. -/
theorem C6_formatting_classifier_thresholds :
    ∀ (s : Span) (avg : ℚ),
      (avg ≤ 0 → sizeRatio s.size avg = 1) ∧
      (0 < avg → sizeRatio s.size avg = s.size / avg) ∧
      (isHeadingByFormatting s avg = some HLevel.H1 ↔
        (sizeRatio s.size avg ≥ 1.4 ∨
          (isBoldFlags s.flags = true ∧ sizeRatio s.size avg ≥ 1.2))) ∧
      (isHeadingByFormatting s avg = some HLevel.H2 ↔
        (¬(sizeRatio s.size avg ≥ 1.4 ∨
            (isBoldFlags s.flags = true ∧ sizeRatio s.size avg ≥ 1.2)) ∧
          (sizeRatio s.size avg ≥ 1.20 ∨
            (isBoldFlags s.flags = true ∧ sizeRatio s.size avg ≥ 1.0)))) ∧
      (isHeadingByFormatting s avg = some HLevel.H3 ↔
        (¬(sizeRatio s.size avg ≥ 1.4 ∨
            (isBoldFlags s.flags = true ∧ sizeRatio s.size avg ≥ 1.2)) ∧
          ¬(sizeRatio s.size avg ≥ 1.20 ∨
            (isBoldFlags s.flags = true ∧ sizeRatio s.size avg ≥ 1.0)) ∧
          isBoldFlags s.flags = true ∧ sizeRatio s.size avg ≥ 0.8)) ∧
      (isHeadingByFormatting s avg = none ↔
        (¬(sizeRatio s.size avg ≥ 1.4 ∨
            (isBoldFlags s.flags = true ∧ sizeRatio s.size avg ≥ 1.2)) ∧
          ¬(sizeRatio s.size avg ≥ 1.20 ∨
            (isBoldFlags s.flags = true ∧ sizeRatio s.size avg ≥ 1.0)) ∧
          ¬(isBoldFlags s.flags = true ∧ sizeRatio s.size avg ≥ 0.8))) := by
  intro s avg
  refine ⟨fun h => ?_, fun h => ?_, ?_, ?_, ?_, ?_⟩
  · simp only [sizeRatio, if_neg (not_lt.mpr h)]
  · simp only [sizeRatio, if_pos h]
  all_goals
    simp only [isHeadingByFormatting]
    split_ifs with h1 h2 h3 <;> simp_all

/-- Claim C10: under the collaborator contract that every sampled span
font size is positive (§3 of the design declares span font sizes positive
reals), `calculate_average_font_size` is strictly positive — the mean of
the sampled sizes, or the fallback 12 when no span was sampled — so the
non-positive-average fallback branch of `is_heading_by_formatting` (ratio
forced to 1) is never taken: the ratio is always the genuine quotient. -/
theorem C10_average_font_size_positive :
    ∀ pages : List Page,
      (∀ q ∈ sampledSizes pages, 0 < q) →
      0 < calculateAverageFontSize pages ∧
      (∀ sz : ℚ, sizeRatio sz (calculateAverageFontSize pages) =
        sz / calculateAverageFontSize pages) := by
  intro pages h
  have hpos : 0 < calculateAverageFontSize pages := by
    by_cases he : (sampledSizes pages).isEmpty
    · simp [calculateAverageFontSize, he]
    · have hnil : sampledSizes pages ≠ [] := by
        simpa [List.isEmpty_iff] using he
      have hq : 0 < (sampledSizes pages).sum / ((sampledSizes pages).length : ℚ) :=
        div_pos (List.sum_pos _ h hnil)
          (by exact_mod_cast List.length_pos.mpr hnil)
      simpa [calculateAverageFontSize, he] using hq
  refine ⟨hpos, fun sz => ?_⟩
  simp only [sizeRatio, if_pos hpos]

/-- Witness for C10 at the concrete demo document. -/
theorem C10_average_font_size_positive_witness :
    (∀ q ∈ sampledSizes annualDoc.pages, 0 < q) ∧
      0 < calculateAverageFontSize annualDoc.pages :=
  ⟨by decide, (C10_average_font_size_positive annualDoc.pages (by decide)).1⟩

/-! ### Independence of the result from the diagnostics state -/

lemma applyStep_stLike {s1 s2 : AsmSt} (h : stLike s1 s2) (r : StepRes) :
    stLike (applyStep s1 r) (applyStep s2 r) := by
  obtain ⟨h1, h2⟩ := h
  exact ⟨by simp [applyStep, h1], by simp [applyStep, h2]⟩

lemma processLines_stLike (ctx : LineCtx) (lines : List Line) :
    ∀ (fuel i : Nat) (s1 s2 : AsmSt), stLike s1 s2 →
      stLike (processLines ctx lines fuel i s1)
        (processLines ctx lines fuel i s2) := by
  intro fuel
  induction fuel with
  | zero => intro i s1 s2 h; exact h
  | succ n ih =>
    intro i s1 s2 h
    simp only [processLines]
    by_cases hi : i < lines.length
    · rw [if_pos hi, if_pos hi, h.2]
      exact ih _ _ _ (applyStep_stLike h _)
    · rw [if_neg hi, if_neg hi]; exact h

lemma processBlock_stLike (ctx : LineCtx) (b : Block) {s1 s2 : AsmSt}
    (h : stLike s1 s2) : stLike (processBlock ctx s1 b) (processBlock ctx s2 b) := by
  unfold processBlock
  match b.lines with
  | none => exact h
  | some lines => exact processLines_stLike ctx lines _ _ _ _ h

lemma foldBlocks_stLike (ctx : LineCtx) :
    ∀ (bs : List Block) (s1 s2 : AsmSt), stLike s1 s2 →
      stLike (bs.foldl (processBlock ctx) s1) (bs.foldl (processBlock ctx) s2) := by
  intro bs
  induction bs with
  | nil => intro s1 s2 h; exact h
  | cons b rest ih =>
    intro s1 s2 h
    exact ih _ _ (processBlock_stLike ctx b h)

lemma processPage_stLike (title : Txt) (avg : ℚ) (tables : List (Nat × Rect))
    (totalPages pageNum : Nat) (page : Page) {s1 s2 : AsmSt} (h : stLike s1 s2) :
    stLike (processPage title avg tables totalPages pageNum page s1)
      (processPage title avg tables totalPages pageNum page s2) :=
  foldBlocks_stLike _ _ _ _ h

lemma processPages_stLike (title : Txt) (avg : ℚ) (tables : List (Nat × Rect))
    (totalPages : Nat) :
    ∀ (n : Nat) (pages : List Page) (s1 s2 : AsmSt), stLike s1 s2 →
      stLike (processPages title avg tables totalPages n pages s1)
        (processPages title avg tables totalPages n pages s2) := by
  intro n pages
  induction pages generalizing n with
  | nil => intro s1 s2 h; exact h
  | cons p rest ih =>
    intro s1 s2 h
    exact ih _ _ _ (processPage_stLike title avg tables totalPages n p h)

/-- The observable result of `extract_outline` does not depend on the
accumulated `detected_lists` diagnostics the instance carries. -/
lemma extractOutline_fst_indep (file : Except String PdfInput)
    (dl dl' : List ListEntry) :
    (extractOutline file dl).1 = (extractOutline file dl').1 := by
  match file with
  | .error e => rfl
  | .ok inp =>
    show (extractOutlineOk inp dl).1 = (extractOutlineOk inp dl').1
    unfold extractOutlineOk
    have h := processPages_stLike (extractTitleFromText inp)
      (calculateAverageFontSize inp.pages) (detectTables inp.plumber)
      inp.pages.length 0 inp.pages
      { outline := [], processed := [], dl := dl }
      { outline := [], processed := [], dl := dl' } ⟨rfl, rfl⟩
    simp only [h.1]

/-- Claim C9: `extract_outline` is deterministic — on the same document and
the same collaborator outputs it produces identical `OutlineResult`s
regardless of the list-detection diagnostics accumulated by the extractor
instance; in particular an immediate re-run reproduces the first result. -/
theorem C9_extract_outline_deterministic :
    ∀ (file : Except String PdfInput) (dl dl' : List ListEntry),
      (extractOutline file dl).1 = (extractOutline file dl').1 ∧
      (extractOutline file (extractOutline file dl).2).1 =
        (extractOutline file dl).1 :=
  fun file dl dl' =>
    ⟨extractOutline_fst_indep file dl dl',
     extractOutline_fst_indep file (extractOutline file dl).2 dl⟩

/-- The batch loop accumulator lemma: results are the per-file results. -/
lemma processDirectory_fst_aux :
    ∀ (files : List (Except String PdfInput)) (acc : List OutlineResult)
      (dl : List ListEntry),
      (files.foldl (fun acc f =>
        let r := extractOutline f acc.2
        (acc.1 ++ [r.1], r.2)) (acc, dl)).1 =
      acc ++ files.map (fun f => (extractOutline f dl).1) := by
  intro files
  induction files with
  | nil => intro acc dl; simp
  | cons f rest ih =>
    intro acc dl
    simp only [List.foldl_cons, List.map_cons]
    rw [ih]
    have : rest.map (fun g => (extractOutline g (extractOutline f dl).2).1) =
        rest.map (fun g => (extractOutline g dl).1) :=
      List.map_congr_left (fun g _ => extractOutline_fst_indep g _ dl)
    rw [this]
    simp

/-- Claim C8: a decode failure is recovered at the per-document boundary —
`extract_outline` returns the empty title and empty outline instead of
propagating — and `process_directory` still writes one result per input
file, each the result of processing that file alone, so one bad document
never aborts the rest of the batch. -/
theorem C8_decode_failure_recovered :
    (∀ (e : String) (dl : List ListEntry),
      extractOutline (Except.error e) dl = ({ title := [], outline := [] }, dl)) ∧
    (∀ (files : List (Except String PdfInput)) (dl : List ListEntry),
      (processDirectory files dl).1 =
        files.map (fun f => (extractOutline f dl).1)) := by
  constructor
  · intro e dl; rfl
  · intro files dl
    unfold processDirectory
    simpa using processDirectory_fst_aux files [] dl

/-! ### Sortedness and key-uniqueness of the final outline -/

lemma txtLe_total : ∀ a b : Txt, txtLe a b = true ∨ txtLe b a = true := by
  intro a
  induction a with
  | nil => intro b; left; rfl
  | cons x xs ih =>
    intro b
    cases b with
    | nil => right; rfl
    | cons y ys =>
      simp only [txtLe]
      rcases Nat.lt_trichotomy x.toNat y.toNat with h | h | h
      · left; rw [if_pos h]
      · rw [if_neg (by omega), if_neg (by omega), if_neg (by omega),
          if_neg (by omega)]
        exact ih ys
      · right; rw [if_pos h]

lemma txtLe_trans : ∀ a b c : Txt,
    txtLe a b = true → txtLe b c = true → txtLe a c = true := by
  intro a
  induction a with
  | nil => intro b c _ _; rfl
  | cons x xs ih =>
    intro b c hab hbc
    cases b with
    | nil => simp [txtLe] at hab
    | cons y ys =>
      cases c with
      | nil => simp [txtLe] at hbc
      | cons z zs =>
        simp only [txtLe] at hab hbc ⊢
        rcases Nat.lt_trichotomy x.toNat y.toNat with h1 | h1 | h1 <;>
          rcases Nat.lt_trichotomy y.toNat z.toNat with h2 | h2 | h2
        · rw [if_pos (by omega)]
        · rw [if_pos (by omega)]
        · rw [if_neg (by omega), if_pos (by omega)] at hbc; exact absurd hbc (by simp)
        · rw [if_pos (by omega)]
        · rw [if_neg (by omega), if_neg (by omega)]
          rw [if_neg (by omega), if_neg (by omega)] at hab
          rw [if_neg (by omega), if_neg (by omega)] at hbc
          exact ih ys zs hab hbc
        · rw [if_neg (by omega), if_pos (by omega)] at hbc; exact absurd hbc (by simp)
        · rw [if_neg (by omega), if_pos (by omega)] at hab; exact absurd hab (by simp)
        · rw [if_neg (by omega), if_pos (by omega)] at hab; exact absurd hab (by simp)
        · rw [if_neg (by omega), if_pos (by omega)] at hab; exact absurd hab (by simp)

lemma keyLe_total : ∀ a b : HeadingRec, keyLe a b = true ∨ keyLe b a = true := by
  intro a b
  simp only [keyLe, Bool.or_eq_true, Bool.and_eq_true, decide_eq_true_eq]
  rcases Nat.lt_trichotomy a.page b.page with h | h | h
  · left; left; exact h
  · rcases txtLe_total a.text b.text with ht | ht
    · left; right; exact ⟨h, ht⟩
    · right; right; exact ⟨h.symm, ht⟩
  · right; left; exact h

lemma keyLe_trans : ∀ a b c : HeadingRec,
    keyLe a b = true → keyLe b c = true → keyLe a c = true := by
  intro a b c hab hbc
  simp only [keyLe, Bool.or_eq_true, Bool.and_eq_true, decide_eq_true_eq] at *
  rcases hab with h1 | ⟨h1, t1⟩ <;> rcases hbc with h2 | ⟨h2, t2⟩
  · left; omega
  · left; omega
  · left; omega
  · right; exact ⟨h1.trans h2, txtLe_trans _ _ _ t1 t2⟩

lemma mem_insRec : ∀ (x : HeadingRec) (l : List HeadingRec) (a : HeadingRec),
    a ∈ insRec x l ↔ a = x ∨ a ∈ l := by
  intro x l
  induction l with
  | nil => intro a; simp [insRec]
  | cons y ys ih =>
    intro a
    simp only [insRec]
    by_cases h : keyLe x y
    · rw [if_pos h]; simp
    · rw [if_neg h]; simp [ih]; tauto

lemma pairwise_insRec (x : HeadingRec) :
    ∀ l : List HeadingRec, l.Pairwise (fun a b => keyLe a b = true) →
      (insRec x l).Pairwise (fun a b => keyLe a b = true) := by
  intro l
  induction l with
  | nil => intro _; simp [insRec]
  | cons y ys ih =>
    intro h
    rw [List.pairwise_cons] at h
    simp only [insRec]
    by_cases hxy : keyLe x y
    · rw [if_pos hxy]
      refine List.Pairwise.cons ?_ (List.Pairwise.cons h.1 h.2)
      intro z hz
      rcases List.mem_cons.mp hz with rfl | hz'
      · exact hxy
      · exact keyLe_trans _ _ _ hxy (h.1 z hz')
    · rw [if_neg hxy]
      refine List.Pairwise.cons ?_ (ih h.2)
      intro z hz
      rcases (mem_insRec x ys z).mp hz with rfl | hz'
      · rcases keyLe_total z y with ht | ht
        · exact absurd ht hxy
        · exact ht
      · exact h.1 z hz'

lemma pairwise_pySortRecs :
    ∀ l : List HeadingRec,
      (pySortRecs l).Pairwise (fun a b => keyLe a b = true) := by
  intro l
  induction l with
  | nil => simp [pySortRecs]
  | cons x xs ih => exact pairwise_insRec x _ ih

lemma dedupRecs_sublist : ∀ (l : List HeadingRec) (seen : List (HLevel × Txt)),
    List.Sublist (dedupRecs l seen) l := by
  intro l
  induction l with
  | nil => intro seen; simp [dedupRecs]
  | cons x xs ih =>
    intro seen
    simp only [dedupRecs]
    by_cases h : seen.contains (x.level, x.text)
    · rw [if_pos h]; exact (ih seen).cons x
    · rw [if_neg h]; exact (ih _).cons₂ x

lemma dedupRecs_keys : ∀ (l : List HeadingRec) (seen : List (HLevel × Txt)),
    (∀ x ∈ dedupRecs l seen, (x.level, x.text) ∉ seen) ∧
      (dedupRecs l seen).Pairwise
        (fun a b => (a.level, a.text) ≠ (b.level, b.text)) := by
  intro l
  induction l with
  | nil => intro seen; simp [dedupRecs]
  | cons x xs ih =>
    intro seen
    simp only [dedupRecs]
    by_cases h : seen.contains (x.level, x.text)
    · rw [if_pos h]; exact ih seen
    · rw [if_neg h]
      have hx : (x.level, x.text) ∉ seen := by
        intro hmem
        exact h (List.elem_iff.mpr hmem)
      obtain ⟨ihFresh, ihPw⟩ := ih ((x.level, x.text) :: seen)
      refine ⟨?_, ?_⟩
      · intro y hy
        rcases List.mem_cons.mp hy with rfl | hy'
        · exact hx
        · intro hmem
          exact ihFresh y hy' (List.mem_cons_of_mem _ hmem)
      · refine List.Pairwise.cons ?_ ihPw
        intro y hy heq
        exact ihFresh y hy (by rw [← heq]; exact List.mem_cons_self _ _)

/-- Claim C1: for every document, the final outline contains no two records
with the same `(level, text)` pair, and records are sorted non-decreasing by
page number and, within equal pages, non-decreasing by text (codepoint
lexicographic, the Python string order). -/
theorem C1_outline_unique_and_sorted :
    ∀ (file : Except String PdfInput) (dl : List ListEntry),
      ((extractOutline file dl).1.outline).Pairwise
        (fun a b => (a.level, a.text) ≠ (b.level, b.text)) ∧
      ((extractOutline file dl).1.outline).Pairwise
        (fun a b => keyLe a b = true) := by
  intro file dl
  match file with
  | .error e => constructor <;> simp [extractOutline]
  | .ok inp =>
    have houtline : (extractOutline (.ok inp) dl).1.outline =
        finalizeOutline (processPages (extractTitleFromText inp)
          (calculateAverageFontSize inp.pages) (detectTables inp.plumber)
          inp.pages.length 0 inp.pages
          { outline := [], processed := [], dl := dl }).outline := rfl
    rw [houtline]
    unfold finalizeOutline
    constructor
    · exact (dedupRecs_keys _ []).2
    · exact List.Pairwise.sublist (dedupRecs_sublist _ []) (pairwise_pySortRecs _)

/-! ### Language detection (claim C4) -/

lemma kana_scripts (c : Char) (h : isKanaCh c = true) :
    isLatinCh c = false ∧ isArabCh c = false ∧ isCyrCh c = false := by
  simp only [isKanaCh, isHiraCh, isKataCh, isLatinCh, isUpperA, isLowerA,
    isArabCh, isCyrCh, inR, Bool.or_eq_true, Bool.or_eq_false_iff,
    decide_eq_true_eq, decide_eq_false_iff_not, not_and, not_le] at h ⊢
  omega

lemma hangul_scripts (c : Char) (h : isHangulCh c = true) :
    isLatinCh c = false ∧ (isCjkCh c || isKanaCh c) = false ∧
      isArabCh c = false ∧ isCyrCh c = false := by
  simp only [isHangulCh, isKanaCh, isHiraCh, isKataCh, isCjkCh, isLatinCh,
    isUpperA, isLowerA, isArabCh, isCyrCh, inR, Bool.or_eq_true,
    Bool.or_eq_false_iff, decide_eq_true_eq, decide_eq_false_iff_not,
    not_and, not_le] at h ⊢
  omega

lemma arab_scripts (c : Char) (h : isArabCh c = true) :
    isLatinCh c = false ∧ (isCjkCh c || isKanaCh c) = false ∧
      isCyrCh c = false := by
  simp only [isHangulCh, isKanaCh, isHiraCh, isKataCh, isCjkCh, isLatinCh,
    isUpperA, isLowerA, isArabCh, isCyrCh, inR, Bool.or_eq_true,
    Bool.or_eq_false_iff, decide_eq_true_eq, decide_eq_false_iff_not,
    not_and, not_le] at h ⊢
  omega

lemma pyLower_id_of_ge (c : Char) (h : 1280 ≤ c.toNat) : pyLower c = c := by
  have h1 : isUpperA c = false := by
    simp only [isUpperA, inR, decide_eq_false_iff_not, not_and, not_le]; omega
  have h2 : (inR c 0xC0 0xD6 || inR c 0xD8 0xDE) = false := by
    simp only [inR, Bool.or_eq_false_iff, decide_eq_false_iff_not, not_and,
      not_le]; omega
  have h3 : inR c 0x400 0x40F = false := by
    simp only [inR, decide_eq_false_iff_not, not_and, not_le]; omega
  have h4 : inR c 0x410 0x42F = false := by
    simp only [inR, decide_eq_false_iff_not, not_and, not_le]; omega
  simp [pyLower, h1, h2, h3, h4]

lemma containsT_subset {hay k : Txt} (h : containsT hay k = true) :
    ∀ c ∈ k, c ∈ hay := by
  simp only [containsT, List.any_eq_true] at h
  obtain ⟨s, hs, hpre⟩ := h
  have hsuf : s <:+ hay := (List.mem_tails s hay).mp hs
  have hp : k <+: s := List.isPrefixOf_iff_prefix.mp hpre
  intro c hc
  exact hsuf.subset (hp.subset hc)

/-- Every keyword of the four Latin-branch languages contains a non-Hangul
character (checked over the concrete tables). -/
lemma latin_kw_non_hangul :
    ∀ l ∈ [Lang.en, Lang.es, Lang.fr, Lang.de], ∀ k ∈ allKeywords l,
      k.any (fun c => !isHangulCh c) = true := by decide

/-- Counterexample to claim C4 as stated: the non-empty all-Hangul string
`안녕` is classified `en`, not `ko` (Hangul codepoints are not counted
toward any script bucket). -/
theorem C4_detect_language_counterexample :
    detectLanguage ("안녕".toList) = Lang.en ∧
      Lang.en ≠ Lang.ko ∧
      ("안녕".toList) ≠ [] ∧
      (∀ c ∈ ("안녕".toList), isHangulCh c = true) := by
  refine ⟨by decide, by decide, by decide, by decide⟩

/-- Claim C4 (amended): `detect_language` returns `ja` for every non-empty
string consisting only of Hiragana/Katakana codepoints; returns `en` — not
`ko` — for every non-empty string consisting only of Hangul codepoints
(Hangul is counted in no script bucket, so the Latin branch wins the tie
and its keyword scan fails); returns `ar` for every non-empty string of
Arabic-range codepoints; and returns `en` for every string whose Latin
count is maximal among the script buckets and whose lower-cased text
contains the word "introduction". -/
theorem C4_detect_language_amended :
    (∀ t : Txt, t ≠ [] → (∀ c ∈ t, isKanaCh c = true) →
      detectLanguage t = Lang.ja) ∧
    (∀ t : Txt, t ≠ [] → (∀ c ∈ t, isHangulCh c = true) →
      detectLanguage t = Lang.en) ∧
    (∀ t : Txt, t ≠ [] → (∀ c ∈ t, isArabCh c = true) →
      detectLanguage t = Lang.ar) ∧
    (∀ t : Txt,
      t.countP (fun c => isCjkCh c || isKanaCh c) ≤ t.countP isLatinCh →
      t.countP isArabCh ≤ t.countP isLatinCh →
      t.countP isCyrCh ≤ t.countP isLatinCh →
      containsT (lowerT t) ("introduction".toList) = true →
      detectLanguage t = Lang.en) := by
  refine ⟨?_, ?_, ?_, ?_⟩
  · intro t hne hall
    have hemp : t.isEmpty = false := by simpa [List.isEmpty_iff] using hne
    have hlat : t.countP isLatinCh = 0 :=
      List.countP_eq_zero.mpr (fun c hc => by
        simp [(kana_scripts c (hall c hc)).1])
    have hcjk : t.countP (fun c => isCjkCh c || isKanaCh c) = t.length :=
      List.countP_eq_length.mpr (fun c hc => by simp [hall c hc])
    have hara : t.countP isArabCh = 0 :=
      List.countP_eq_zero.mpr (fun c hc => by
        simp [(kana_scripts c (hall c hc)).2.1])
    have hcyr : t.countP isCyrCh = 0 :=
      List.countP_eq_zero.mpr (fun c hc => by
        simp [(kana_scripts c (hall c hc)).2.2])
    have hlen : 0 < t.length := List.length_pos.mpr hne
    obtain ⟨c, hc⟩ := List.exists_mem_of_ne_nil t hne
    have hany : t.any isKanaCh = true := List.any_eq_true.mpr ⟨c, hc, hall c hc⟩
    simp only [detectLanguage, hemp, Bool.false_eq_true, if_false,
      hlat, hcjk, hara, hcyr, hany]
    rw [if_neg (by omega), if_pos (by omega)]
    simp
  · intro t hne hall
    have hemp : t.isEmpty = false := by simpa [List.isEmpty_iff] using hne
    have hlat : t.countP isLatinCh = 0 :=
      List.countP_eq_zero.mpr (fun c hc => by
        simp [(hangul_scripts c (hall c hc)).1])
    have hcjk : t.countP (fun c => isCjkCh c || isKanaCh c) = 0 :=
      List.countP_eq_zero.mpr (fun c hc => by
        simp [(hangul_scripts c (hall c hc)).2.1])
    have hara : t.countP isArabCh = 0 :=
      List.countP_eq_zero.mpr (fun c hc => by
        simp [(hangul_scripts c (hall c hc)).2.2.1])
    have hcyr : t.countP isCyrCh = 0 :=
      List.countP_eq_zero.mpr (fun c hc => by
        simp [(hangul_scripts c (hall c hc)).2.2.2])
    have hlow : lowerT t = t := by
      have : ∀ c ∈ t, pyLower c = c := by
        intro c hc
        apply pyLower_id_of_ge
        have := hall c hc
        simp only [isHangulCh, inR, decide_eq_true_eq] at this
        omega
      simpa [lowerT] using (List.map_congr_left this).trans (List.map_id t)
    have hfind : latinKeywordLang (lowerT t) = Lang.en := by
      rw [hlow]
      unfold latinKeywordLang
      have hnone : ∀ l ∈ [Lang.en, Lang.es, Lang.fr, Lang.de],
          ¬ ((allKeywords l).any (fun k => containsT t k) = true) := by
        intro l hl hany
        obtain ⟨k, hk, hcont⟩ := List.any_eq_true.mp hany
        obtain ⟨c, hck, hch⟩ := List.any_eq_true.mp (latin_kw_non_hangul l hl k hk)
        have : isHangulCh c = true := hall c (containsT_subset hcont c hck)
        simp [this] at hch
      rw [List.find?_eq_none.mpr hnone]
    simp only [detectLanguage, hemp, Bool.false_eq_true, if_false,
      hlat, hcjk, hara, hcyr]
    rw [if_pos (by omega)]
    exact hfind
  · intro t hne hall
    have hemp : t.isEmpty = false := by simpa [List.isEmpty_iff] using hne
    have hlat : t.countP isLatinCh = 0 :=
      List.countP_eq_zero.mpr (fun c hc => by
        simp [(arab_scripts c (hall c hc)).1])
    have hcjk : t.countP (fun c => isCjkCh c || isKanaCh c) = 0 :=
      List.countP_eq_zero.mpr (fun c hc => by
        simp [(arab_scripts c (hall c hc)).2.1])
    have hara : t.countP isArabCh = t.length :=
      List.countP_eq_length.mpr (fun c hc => by simp [hall c hc])
    have hcyr : t.countP isCyrCh = 0 :=
      List.countP_eq_zero.mpr (fun c hc => by
        simp [(arab_scripts c (hall c hc)).2.2])
    have hlen : 0 < t.length := List.length_pos.mpr hne
    simp only [detectLanguage, hemp, Bool.false_eq_true, if_false,
      hlat, hcjk, hara, hcyr]
    rw [if_neg (by omega), if_neg (by omega), if_pos (by omega)]
  · intro t hcjk hara hcyr hintro
    by_cases hemp : t.isEmpty
    · simp [detectLanguage, hemp]
    · have hen : (allKeywords Lang.en).any
          (fun k => containsT (lowerT t) k) = true := by
        apply List.any_eq_true.mpr
        exact ⟨("introduction".toList), by decide, hintro⟩
      simp only [detectLanguage, hemp, Bool.false_eq_true, if_false]
      rw [if_pos ⟨hcjk, hara, hcyr⟩]
      unfold latinKeywordLang
      simp [hen]

/-- Witness for the amended C4 at concrete inputs for the kana clause. -/
theorem C4_detect_language_amended_witness :
    detectLanguage ("あいう".toList) = Lang.ja :=
  C4_detect_language_amended.1 ("あいう".toList) (by decide) (by decide)

/-! ### List-sequence detection (claim C5) -/

lemma range_filter_countP (lines : List Line) (p : Line → Bool) :
    ∀ (n lo : Nat),
      ((List.range' lo n).filter (fun j =>
        decide (j < lines.length) && p (lines.getD j dfltLine))).length =
      ((lines.drop lo).take n).countP p := by
  intro n
  induction n with
  | zero => intro lo; simp
  | succ m ih =>
    intro lo
    rw [List.range'_succ]
    by_cases hlo : lo < lines.length
    · rw [List.drop_eq_getElem_cons hlo, List.take_succ_cons, List.countP_cons]
      have hget : lines.getD lo dfltLine = lines[lo] := List.getD_eq_getElem _ _ hlo
      by_cases hp : p lines[lo]
      · rw [List.filter_cons_of_pos (by simp [hlo, hget, hp]), List.length_cons,
          ih (lo + 1), hp]
        simp
      · rw [List.filter_cons_of_neg (by simp [hlo, hget, hp]), ih (lo + 1)]
        simp [hp]
    · have hd1 : lines.drop lo = [] := List.drop_eq_nil_of_le (le_of_not_lt hlo)
      have hd2 : lines.drop (lo + 1) = [] :=
        List.drop_eq_nil_of_le (by omega)
      rw [hd1, List.filter_cons_of_neg (by simp [hlo])]
      rw [ih (lo + 1), hd2]
      simp

lemma take_min_self {α : Type} (xs : List α) (k : Nat) :
    xs.take (min xs.length k) = xs.take k := by
  rcases le_total xs.length k with h | h
  · rw [min_eq_left h, List.take_length, List.take_of_length_le h]
  · rw [min_eq_right h]

lemma similarCount_eq_claim (maj : Nat) (lines : List Line) (i : Nat) :
    similarCount maj lines i = claimNeighborCount maj lines i := by
  unfold similarCount claimNeighborCount
  rw [List.countP_append]
  congr 1
  · rw [range_filter_countP, List.drop_take]
  · have hcong :
        (List.range' (i + 1) (min lines.length (i + 11) - (i + 1))).filter
          (fun j => neighborMatches maj (lines.getD j dfltLine)) =
        (List.range' (i + 1) (min lines.length (i + 11) - (i + 1))).filter
          (fun j => decide (j < lines.length) &&
            neighborMatches maj (lines.getD j dfltLine)) := by
      apply List.filter_congr
      intro j hj
      have hb := List.mem_range'_1.mp hj
      have : j < lines.length := by omega
      simp [this]
    rw [hcong, range_filter_countP]
    have harith : min lines.length (i + 11) - (i + 1) =
        min (lines.drop (i + 1)).length 10 := by
      rw [List.length_drop]; omega
    rw [harith, take_min_self]

/-- Claim C5: for every line matching the `<major>.<minor> ` pattern,
`is_likely_list_item` is true exactly when at least two non-empty
neighbours within the ten lines before and ten lines after it in the same
block match `<major>.<minor> ` with the same major number; in particular
each of the adjacent lines 9.1/9.2/9.3 is suppressed while an isolated 9.1
is not. -/
theorem C5_list_item_detection :
    (∀ (lineText : Txt) (lines : List Line) (i maj mnr : Nat),
      parseMajorMinor (pyStrip lineText) = some (maj, mnr) →
      (isLikelyListItem lineText lines i = true ↔
        2 ≤ claimNeighborCount maj lines i)) ∧
    isLikelyListItem ("9.1 Alpha".toList) demoLines 0 = true ∧
    isLikelyListItem ("9.2 Beta".toList) demoLines 1 = true ∧
    isLikelyListItem ("9.3 Gamma".toList) demoLines 2 = true ∧
    isLikelyListItem ("9.1 Alpha".toList) [demoLine "9.1 Alpha"] 0 = false := by
  refine ⟨?_, by decide, by decide, by decide, by decide⟩
  intro lt lines i maj mnr hp
  unfold isLikelyListItem
  rw [hp]
  simp only [similarCount_eq_claim]
  simp

/-- Witness for C5 at a concrete instantiation of the general clause. -/
theorem C5_list_item_detection_witness :
    isLikelyListItem ("9.1 Alpha".toList) demoLines 0 = true ↔
      2 ≤ claimNeighborCount 9 demoLines 0 :=
  C5_list_item_detection.1 ("9.1 Alpha".toList) demoLines 0 9 1 (by decide)

/-! ### The numbered-heading rule of the noise filter (claim C7) -/

lemma containsT_iff_infix {hay p : Txt} : containsT hay p = true ↔ p <:+: hay := by
  simp only [containsT, List.any_eq_true]
  constructor
  · rintro ⟨s, hs, hpre⟩
    exact List.infix_iff_prefix_suffix.mpr
      ⟨s, List.isPrefixOf_iff_prefix.mp hpre, (List.mem_tails s hay).mp hs⟩
  · intro h
    obtain ⟨s, hpre, hsuf⟩ := List.infix_iff_prefix_suffix.mp h
    exact ⟨s, (List.mem_tails s hay).mpr hsuf, List.isPrefixOf_iff_prefix.mpr hpre⟩

lemma pyStrip_decomp (t : Txt) : ∃ a b, t = a ++ pyStrip t ++ b ∧
    (∀ c ∈ a, pySpace c = true) ∧ (∀ c ∈ b, pySpace c = true) := by
  refine ⟨t.takeWhile pySpace,
    ((t.dropWhile pySpace).reverse.takeWhile pySpace).reverse, ?_, ?_, ?_⟩
  · have h1 : t = t.takeWhile pySpace ++ t.dropWhile pySpace :=
      (List.takeWhile_append_dropWhile pySpace t).symm
    have h3 : t.dropWhile pySpace =
        ((t.dropWhile pySpace).reverse.dropWhile pySpace).reverse ++
          ((t.dropWhile pySpace).reverse.takeWhile pySpace).reverse := by
      conv_lhs => rw [← List.reverse_reverse (t.dropWhile pySpace)]
      conv_lhs =>
        rw [← List.takeWhile_append_dropWhile pySpace
          (t.dropWhile pySpace).reverse]
      rw [List.reverse_append]
    rw [List.append_assoc]
    conv_lhs => rw [h1, h3]
    rfl
  · intro c hc
    exact List.mem_takeWhile_imp hc
  · intro c hc
    rw [List.mem_reverse] at hc
    exact List.mem_takeWhile_imp hc

lemma infix_of_spaces_left {p m : Txt} (hne : p ≠ [])
    (hp : ∀ c ∈ p, pySpace c = false) :
    ∀ a : Txt, (∀ c ∈ a, pySpace c = true) → p <:+: (a ++ m) → p <:+: m := by
  intro a
  induction a with
  | nil => intro _ h; simpa using h
  | cons x a' ih =>
    intro ha h
    rw [List.cons_append, List.infix_cons_iff] at h
    rcases h with hpre | htail
    · cases p with
      | nil => exact absurd rfl hne
      | cons ph pt =>
        obtain ⟨s, hs⟩ := hpre
        rw [List.cons_append] at hs
        have hx : ph = x := (List.cons_eq_cons.mp hs).1
        have h1 : pySpace ph = false := hp ph (List.mem_cons_self _ _)
        have h2 : pySpace x = true := ha x (List.mem_cons_self _ _)
        rw [hx, h2] at h1
        exact absurd h1 (by simp)
    · exact ih (fun c hc => ha c (List.mem_cons_of_mem _ hc)) htail

lemma infix_of_spaces_right {p m b : Txt} (hne : p ≠ [])
    (hp : ∀ c ∈ p, pySpace c = false) (hb : ∀ c ∈ b, pySpace c = true)
    (h : p <:+: (m ++ b)) : p <:+: m := by
  have hrev : p.reverse <:+: (b.reverse ++ m.reverse) := by
    rw [← List.reverse_append]
    exact List.reverse_infix.mpr h
  have hres : p.reverse <:+: m.reverse :=
    infix_of_spaces_left (by simpa using hne)
      (fun c hc => hp c (List.mem_reverse.mp hc)) b.reverse
      (fun c hc => hb c (List.mem_reverse.mp hc)) hrev
  have := List.reverse_infix.mpr hres
  simpa using this

lemma containsRun_pyStrip {t : Txt} (h : containsRun '.' 3 t = true) :
    containsRun '.' 3 (pyStrip t) = true := by
  have hinf : (List.replicate 3 '.') <:+: t := containsT_iff_infix.mp h
  obtain ⟨a, b, hdec, ha, hb⟩ := pyStrip_decomp t
  rw [hdec] at hinf
  have hne : (List.replicate 3 '.') ≠ ([] : Txt) := by decide
  have hp : ∀ c ∈ List.replicate 3 '.', pySpace c = false := by
    intro c hc
    rw [List.eq_of_mem_replicate hc]
    rfl
  have h1 : (List.replicate 3 '.') <:+: (pyStrip t ++ b) := by
    rw [List.append_assoc] at hinf
    exact infix_of_spaces_left hne hp a ha hinf
  exact containsT_iff_infix.mpr (infix_of_spaces_right hne hp hb h1)

lemma numbered_head_digit {t : Txt} (h : numberedHeadingStart t = true) :
    ∃ c r, t = c :: r ∧ isDigitCh c = true := by
  unfold numberedHeadingStart at h
  cases t with
  | nil => simp [eatDigits1] at h
  | cons c r =>
    by_cases hd : isDigitCh c
    · exact ⟨c, r, rfl, hd⟩
    · simp [eatDigits1, hd] at h

lemma pyLower_digit {c : Char} (h : isDigitCh c = true) : pyLower c = c := by
  simp only [isDigitCh, inR, decide_eq_true_eq] at h
  have h1 : isUpperA c = false := by
    simp only [isUpperA, inR, decide_eq_false_iff_not, not_and, not_le]; omega
  have h2 : (inR c 0xC0 0xD6 || inR c 0xD8 0xDE) = false := by
    simp only [inR, Bool.or_eq_false_iff, decide_eq_false_iff_not, not_and,
      not_le]; omega
  have h3 : inR c 0x400 0x40F = false := by
    simp only [inR, decide_eq_false_iff_not, not_and, not_le]; omega
  have h4 : inR c 0x410 0x42F = false := by
    simp only [inR, decide_eq_false_iff_not, not_and, not_le]; omega
  simp [pyLower, h1, h2, h3, h4]

/-- Every table-of-contents or appendix keyword of every language is
non-empty and does not start (case-insensitively) with a digit — checked
over the concrete tables. -/
lemma toc_app_kw_fact : ∀ l : Lang,
    ∀ k ∈ (headingKeywords l).tableOfContents ++ (headingKeywords l).appendix,
      k ≠ [] ∧ isDigitCh (pyLower (k.headD 'x')) = false := by
  intro l
  cases l <;> decide

lemma startsCIT_false_of_digit {t k : Txt} (c : Char) (r : Txt)
    (ht : t = c :: r) (hd : isDigitCh c = true) (hk : k ≠ [])
    (hkd : isDigitCh (pyLower (k.headD 'x')) = false) :
    startsCIT t k = false := by
  cases k with
  | nil => exact absurd rfl hk
  | cons kh kt =>
    subst ht
    have hkd' : isDigitCh (pyLower kh) = false := by simpa using hkd
    have hne : pyLower kh ≠ pyLower c := by
      intro heq
      rw [heq, pyLower_digit hd] at hkd'
      simp [hkd'] at hd
    simp [startsCIT, lowerT, List.isPrefixOf, hne]

lemma tocException_false_of_digit (langs : List Lang) {t : Txt} (c : Char)
    (r : Txt) (ht : t = c :: r) (hd : isDigitCh c = true) :
    tocException langs t = false := by
  unfold tocException
  rw [Bool.or_eq_false_iff]
  constructor
  · unfold startsAnyCI
    rw [List.any_eq_false]
    intro k hk
    obtain ⟨l, hl, hkl⟩ := List.mem_flatMap.mp hk
    have hf := toc_app_kw_fact l k (List.mem_append_left _ hkl)
    simp [startsCIT_false_of_digit c r ht hd hf.1 hf.2]
  · rw [List.any_eq_false]
    intro k hk
    obtain ⟨l, hl, hkl⟩ := List.mem_flatMap.mp hk
    have hf := toc_app_kw_fact l k (List.mem_append_right _ hkl)
    have hs := startsCIT_false_of_digit c r ht hd hf.1 hf.2
    simp [appendixColon, eatCI, hs]

/-- Claim C7: the numbered-heading special case of `should_skip_text`.  A
text starting `<number>. <letter>` that contains a run of three or more
dots is excluded (the ToC-row rule already fires: its exception cannot
apply to a digit-initial text); if it reaches the numbered rule without
such a run, then with span data containing a bold letter-bearing span it is
not excluded regardless of the remaining rules; with span data but no such
bold span the remaining address/form/web/date rules decide; and with no
span data it is not excluded. -/
theorem C7_numbered_heading_rule :
    (∀ (text : Txt) (spans : Option (List Span)),
      numberedHeadingStart (pyStrip text) = true →
      containsRun '.' 3 text = true →
      shouldSkipText text spans = true) ∧
    (∀ (text : Txt) (ss : List Span),
      numberedHeadingStart (pyStrip text) = true →
      (tocRowMatch (pyStrip text) &&
        !tocException (languagesToCheck (detectLanguage text))
          (pyStrip text)) = false →
      warningMatch (languagesToCheck (detectLanguage text))
        (pyStrip text) = false →
      (decide (text.length > 60) &&
        longInstruction (languagesToCheck (detectLanguage text)) text) = false →
      containsRun '.' 3 text = false →
      ss ≠ [] →
      anyBoldLetterSpan ss = true →
      shouldSkipText text (some ss) = false) ∧
    (∀ (text : Txt) (ss : List Span),
      numberedHeadingStart (pyStrip text) = true →
      (tocRowMatch (pyStrip text) &&
        !tocException (languagesToCheck (detectLanguage text))
          (pyStrip text)) = false →
      warningMatch (languagesToCheck (detectLanguage text))
        (pyStrip text) = false →
      (decide (text.length > 60) &&
        longInstruction (languagesToCheck (detectLanguage text)) text) = false →
      containsRun '.' 3 text = false →
      ss ≠ [] →
      anyBoldLetterSpan ss = false →
      shouldSkipText text (some ss) =
        restPatterns (detectLanguage text) text) ∧
    (∀ text : Txt,
      numberedHeadingStart (pyStrip text) = true →
      (tocRowMatch (pyStrip text) &&
        !tocException (languagesToCheck (detectLanguage text))
          (pyStrip text)) = false →
      warningMatch (languagesToCheck (detectLanguage text))
        (pyStrip text) = false →
      (decide (text.length > 60) &&
        longInstruction (languagesToCheck (detectLanguage text)) text) = false →
      containsRun '.' 3 text = false →
      shouldSkipText text none = false) := by
  have hpre : ∀ text : Txt, numberedHeadingStart (pyStrip text) = true →
      text.isEmpty = false ∧ (pyStrip text).isEmpty = false := by
    intro text hnum
    obtain ⟨c, r, hcr, hd⟩ := numbered_head_digit hnum
    constructor
    · cases text with
      | nil => simp [pyStrip] at hcr
      | cons a b => rfl
    · rw [hcr]; rfl
  refine ⟨?_, ?_, ?_, ?_⟩
  · intro text spans hnum hdots
    obtain ⟨c, r, hcr, hd⟩ := numbered_head_digit hnum
    obtain ⟨htne, hstne⟩ := hpre text hnum
    have hrun := containsRun_pyStrip hdots
    have htoc : tocRowMatch (pyStrip text) = true := by
      unfold tocRowMatch tocRow1
      rw [hrun]
      rfl
    have hexc := tocException_false_of_digit
      (languagesToCheck (detectLanguage text)) c r hcr hd
    simp [shouldSkipText, htne, hstne, htoc, hexc]
  · intro text ss hnum h2 h3 h4 h5 h6 h7
    obtain ⟨htne, hstne⟩ := hpre text hnum
    have hse : ss.isEmpty = false := by simpa [List.isEmpty_iff] using h6
    simp [shouldSkipText, htne, hstne, h2, h3, h4, hnum, h5, hse, h7]
  · intro text ss hnum h2 h3 h4 h5 h6 h7
    obtain ⟨htne, hstne⟩ := hpre text hnum
    have hse : ss.isEmpty = false := by simpa [List.isEmpty_iff] using h6
    simp [shouldSkipText, htne, hstne, h2, h3, h4, hnum, h5, hse, h7]
  · intro text hnum h2 h3 h4 h5
    obtain ⟨htne, hstne⟩ := hpre text hnum
    simp [shouldSkipText, htne, hstne, h2, h3, h4, hnum, h5]

/-! ### The per-record acceptance facts of the assembler (claims C2, C3) -/

lemma lineGuard_facts (ctx : LineCtx) (line : Line) (lineText : Txt)
    (lineSpans : List Span) (processed : List Txt)
    (hg : lineGuard ctx line lineText lineSpans processed = true) :
    3 < lineText.length ∧ lineText.length < 200 ∧ lineText ≠ ctx.title := by
  unfold lineGuard at hg
  simp only [Bool.and_eq_true, decide_eq_true_eq] at hg
  exact ⟨hg.1.1.1.1.1.1.1.1.1, hg.1.1.1.1.1.1.1.1.2, hg.1.1.1.1.2⟩

lemma stepLineCore_acc (ctx : LineCtx) (lines : List Line) (line : Line)
    (lineText : Txt) (lineSpans : List Span) (iNext : Nat)
    (processed : List Txt) (r : HeadingRec) (lt : Txt)
    (h : (stepLineCore ctx lines line lineText lineSpans iNext processed).acc? =
      some (r, lt)) :
    3 < lt.length ∧ lt.length < 200 ∧ r.text = cleanExtractedText lt true ∧
      lt ≠ ctx.title ∧ r.page = ctx.pageNum + 1 := by
  unfold stepLineCore at h
  split at h
  · exact absurd h (by simp)
  rename_i hgB
  split at h
  · exact absurd h (by simp)
  split at h
  · exact absurd h (by simp)
  split at h
  · exact absurd h (by simp)
  split at h
  · exact absurd h (by simp)
  simp only [Option.some.injEq, Prod.mk.injEq] at h
  obtain ⟨hr, hlt⟩ := h
  subst hlt
  have hgT : lineGuard ctx line lineText lineSpans processed = true := by
    cases hEq : lineGuard ctx line lineText lineSpans processed with
    | false => exact absurd (by rw [hEq]; rfl) hgB
    | true => rfl
  obtain ⟨h1, h2, h3⟩ := lineGuard_facts ctx line lineText lineSpans
    processed hgT
  exact ⟨h1, h2, by rw [← hr], h3, by rw [← hr]⟩

lemma stepLine_acc (ctx : LineCtx) (lines : List Line) (i : Nat)
    (processed : List Txt) (r : HeadingRec) (lt : Txt)
    (h : (stepLine ctx lines i processed).acc? = some (r, lt)) :
    3 < lt.length ∧ lt.length < 200 ∧ r.text = cleanExtractedText lt true ∧
      lt ≠ ctx.title ∧ r.page = ctx.pageNum + 1 := by
  unfold stepLine at h
  exact stepLineCore_acc _ _ _ _ _ _ _ _ _ h

lemma applyStep_recOk (ctx : LineCtx) (lines : List Line) (i : Nat)
    (st : AsmSt) (hst : ∀ r ∈ st.outline, recOk ctx.title r) :
    ∀ r ∈ (applyStep st (stepLine ctx lines i st.processed)).outline,
      recOk ctx.title r := by
  intro r hr
  unfold applyStep at hr
  simp only [List.mem_append] at hr
  rcases hr with hr | hr
  · exact hst r hr
  · revert hr
    cases hacc : (stepLine ctx lines i st.processed).acc? with
    | none => intro hr; simp at hr
    | some p =>
      obtain ⟨r0, lt0⟩ := p
      intro hr
      simp at hr
      subst hr
      obtain ⟨h1, h2, h3, h4, _⟩ :=
        stepLine_acc ctx lines i st.processed r lt0 hacc
      exact ⟨lt0, h1, h2, h3, h4⟩

lemma processLines_recOk (ctx : LineCtx) (lines : List Line) :
    ∀ (fuel i : Nat) (st : AsmSt),
      (∀ r ∈ st.outline, recOk ctx.title r) →
      ∀ r ∈ (processLines ctx lines fuel i st).outline, recOk ctx.title r := by
  intro fuel
  induction fuel with
  | zero => intro i st hst; simpa [processLines] using hst
  | succ n ih =>
    intro i st hst
    unfold processLines
    split
    · exact ih _ _ (applyStep_recOk ctx lines i st hst)
    · exact hst

lemma processBlock_recOk (ctx : LineCtx) (st : AsmSt) (b : Block)
    (hst : ∀ r ∈ st.outline, recOk ctx.title r) :
    ∀ r ∈ (processBlock ctx st b).outline, recOk ctx.title r := by
  unfold processBlock
  cases b.lines with
  | none => exact hst
  | some lines => exact processLines_recOk ctx lines _ _ st hst

lemma foldBlocks_recOk (ctx : LineCtx) :
    ∀ (bs : List Block) (st : AsmSt),
      (∀ r ∈ st.outline, recOk ctx.title r) →
      ∀ r ∈ (bs.foldl (processBlock ctx) st).outline, recOk ctx.title r := by
  intro bs
  induction bs with
  | nil => intro st hst; simpa using hst
  | cons b rest ih =>
    intro st hst
    simp only [List.foldl_cons]
    exact ih _ (processBlock_recOk ctx st b hst)

lemma processPage_recOk (title : Txt) (avg : ℚ) (tables : List (Nat × Rect))
    (totalPages pageNum : Nat) (page : Page) (st : AsmSt)
    (hst : ∀ r ∈ st.outline, recOk title r) :
    ∀ r ∈ (processPage title avg tables totalPages pageNum page st).outline,
      recOk title r := by
  unfold processPage
  exact foldBlocks_recOk _ page.blocks st hst

lemma processPages_recOk (title : Txt) (avg : ℚ) (tables : List (Nat × Rect))
    (totalPages : Nat) :
    ∀ (n : Nat) (ps : List Page) (st : AsmSt),
      (∀ r ∈ st.outline, recOk title r) →
      ∀ r ∈ (processPages title avg tables totalPages n ps st).outline,
        recOk title r := by
  intro n ps
  induction ps generalizing n with
  | nil => intro st hst; simpa [processPages] using hst
  | cons p rest ih =>
    intro st hst
    unfold processPages
    exact ih _ _ (processPage_recOk title avg tables totalPages n p st hst)

lemma mem_pySortRecs : ∀ (l : List HeadingRec) (r : HeadingRec),
    r ∈ pySortRecs l → r ∈ l := by
  intro l
  induction l with
  | nil => intro r h; simp [pySortRecs] at h
  | cons x xs ih =>
    intro r h
    simp only [pySortRecs, List.foldr_cons] at h
    rw [mem_insRec] at h
    rcases h with h | h
    · simp [h]
    · exact List.mem_cons_of_mem x (ih r h)

lemma mem_finalizeOutline (l : List HeadingRec) (r : HeadingRec)
    (h : r ∈ finalizeOutline l) : r ∈ l := by
  unfold finalizeOutline at h
  exact mem_pySortRecs _ r ((dedupRecs_sublist _ _).subset h)

lemma extractOutline_recOk (file : Except String PdfInput)
    (dl0 : List ListEntry) (r : HeadingRec)
    (h : r ∈ (extractOutline file dl0).1.outline) :
    ∃ inp : PdfInput, file = .ok inp ∧ recOk (extractTitleFromText inp) r := by
  cases file with
  | error e => simp [extractOutline] at h
  | ok inp =>
    refine ⟨inp, rfl, ?_⟩
    simp only [extractOutline] at h
    unfold extractOutlineOk at h
    dsimp only at h
    exact processPages_recOk (extractTitleFromText inp)
      (calculateAverageFontSize inp.pages) (detectTables inp.plumber)
      inp.pages.length 0 inp.pages
      { outline := [], processed := [], dl := dl0 } (by simp) r
      (mem_finalizeOutline _ r h)

/-- Witness for C7 at the text `1. Introduction` with a bold span. -/
theorem C7_numbered_heading_rule_witness :
    numberedHeadingStart (pyStrip ("1. Introduction".toList)) = true ∧
      anyBoldLetterSpan
        [{ text := "Introduction".toList, size := 12, flags := 16,
           rotation := 0 }] = true ∧
      shouldSkipText ("1. Introduction".toList)
        (some [{ text := "Introduction".toList, size := 12, flags := 16,
                 rotation := 0 }]) = false :=
  ⟨by decide, by decide,
    C7_numbered_heading_rule.2.1 ("1. Introduction".toList)
      [{ text := "Introduction".toList, size := 12, flags := 16,
         rotation := 0 }]
      (by decide) (by decide) (by decide) (by decide) (by decide)
      (by decide) (by decide)⟩

/-- Claim C3: every heading record produced by `extract_outline` arises
from an accepted line text whose length, measured before the
heading-style cleaning/trailing-space step, is strictly greater than 3
and strictly less than 200 characters. -/
theorem C3_heading_text_length_bounds (file : Except String PdfInput)
    (dl0 : List ListEntry) (r : HeadingRec)
    (h : r ∈ (extractOutline file dl0).1.outline) :
    ∃ lt : Txt, 3 < lt.length ∧ lt.length < 200 ∧
      r.text = cleanExtractedText lt true := by
  obtain ⟨inp, _, lt, h1, h2, h3, _⟩ := extractOutline_recOk file dl0 r h
  exact ⟨lt, h1, h2, h3⟩

/-- Witness for C3 at the two-page demo document, whose single record's
text comes from the 13-character line `ANNUAL REPORT`. -/
theorem C3_heading_text_length_bounds_witness :
    ({ level := HLevel.H2, text := "ANNUAL REPORT ".toList, page := 2 }
        : HeadingRec) ∈
      (extractOutline (.ok annualDoc) []).1.outline ∧
    ∃ lt : Txt, 3 < lt.length ∧ lt.length < 200 ∧
      ("ANNUAL REPORT ".toList) = cleanExtractedText lt true :=
  ⟨by decide,
    C3_heading_text_length_bounds (.ok annualDoc) []
      { level := HLevel.H2, text := "ANNUAL REPORT ".toList, page := 2 }
      (by decide)⟩

/-- Claim C2 is refuted as stated: on the two-page demo document the
resolved title is `Annual Report ` while the outline keeps the page-2
record `ANNUAL REPORT `, and the two are equal case-insensitively.  The
exact-match title protection of the line loop is case-sensitive, and the
case-insensitive containment test only runs on page 1. -/
theorem C2_title_protection_counterexample :
    (extractOutline (.ok annualDoc) []).1.title = "Annual Report ".toList ∧
    (extractOutline (.ok annualDoc) []).1.outline =
      [{ level := HLevel.H2, text := "ANNUAL REPORT ".toList, page := 2 }] ∧
    lowerT ("ANNUAL REPORT ".toList) = lowerT ("Annual Report ".toList) := by
  refine ⟨by decide, by decide, by decide⟩

/-- Claim C2 (amended): every heading record of `extract_outline` comes
from a pre-cleaning line text that differs, case-sensitively, from the
internal title string; the protection is exact-match only, so a
case-variant of the title can survive on pages after the first. -/
theorem C2_title_protection_amended (file : Except String PdfInput)
    (dl0 : List ListEntry) (r : HeadingRec)
    (h : r ∈ (extractOutline file dl0).1.outline) :
    ∃ inp : PdfInput, file = .ok inp ∧
      ∃ lt : Txt, r.text = cleanExtractedText lt true ∧
        lt ≠ extractTitleFromText inp := by
  obtain ⟨inp, hfile, lt, _, _, h3, h4⟩ := extractOutline_recOk file dl0 r h
  exact ⟨inp, hfile, lt, h3, h4⟩

/-- Witness for the amended C2 at the two-page demo document. -/
theorem C2_title_protection_amended_witness :
    ({ level := HLevel.H2, text := "ANNUAL REPORT ".toList, page := 2 }
        : HeadingRec) ∈
      (extractOutline (.ok annualDoc) []).1.outline ∧
    ∃ inp : PdfInput,
      (Except.ok annualDoc : Except String PdfInput) = .ok inp ∧
      ∃ lt : Txt, ("ANNUAL REPORT ".toList) = cleanExtractedText lt true ∧
        lt ≠ extractTitleFromText inp :=
  ⟨by decide,
    C2_title_protection_amended (.ok annualDoc) []
      { level := HLevel.H2, text := "ANNUAL REPORT ".toList, page := 2 }
      (by decide)⟩

end PdfExtract
